import Mathlib

/-!
Formal model of the paced TS writer in tswrite.c (karimdavoodi/tstools).

The development shallowly embeds the parts of tswrite.c that the verified
properties are about:

* the PCR-locked rate controller (`set_buffer_item_time_pcr`) and the
  plain-rate timestamping (`set_buffer_item_time_plain`);
* the circular buffer predicates and the producer/consumer index protocol;
* the EOF sentinel machinery (`write_EOF_to_buffered_TS_output`,
  `received_EOF`) and the child process loop;
* the consumer pacing logic of `write_from_circular` (drift policy and
  burst guard);
* the sink write paths (`write_file_data`, `write_socket_data`);
* the command-channel byte decoder (`read_command`);
* the packet-dropping test hook at the top of `tswrite_write`.

C `double` values are modelled as exact rationals (ℚ); C unsigned 32-bit
values are modelled as integers reduced modulo 2^32 where the source relies
on wraparound.  Division by zero in ℚ yields 0 (where the C source would
produce an IEEE infinity); all theorems that depend on a division carry
hypotheses that keep the divisor nonzero in the source's reachable states.
-/

namespace TsTools

/-- Size in bytes of one TS packet (`TS_PACKET_SIZE` from the headers;
the spec fixes it to 188). -/
def TS_PACKET_SIZE : Int := 188

/-- Modulus of C `uint32_t` arithmetic. -/
def U32 : Int := 4294967296

/-- Per-packet metadata remembered by the producer
(`writer->packet[i]` in tswrite.c): stream index, PID, whether the packet
carried a PCR, and the (already scaled) PCR value. -/
structure packet_data where
  index : Int
  pid : Int
  got_pcr : Bool
  pcr : Int
  deriving Repr, DecidableEq

/-- The static locals of `set_buffer_item_time_pcr` (tswrite.c:483-499),
i.e. the persistent state of the PCR-locked rate controller.  The debug
statistics (`total_available_bytes`, `total_available_time`,
`num_availables`) are omitted: they only feed `printf`. -/
structure rate_state where
  available_bytes : Int
  available_time : ℚ
  last_pcr_index : Int
  last_pcr : Int
  pcr_rate : ℚ
  last_timestamp_near_PCR : Int
  last_timestamp : Int
  had_first_pcr : Bool
  had_second_pcr : Bool
  initial_prime_time : ℚ
  initial_prime_bytes : Int
  deriving Repr, DecidableEq

/-- The fields of `buffered_TS_output` that the timing code reads. -/
structure buffered_TS_output where
  rate : Int
  prime_size : Int
  prime_speedup : Int
  TS_in_item : Int
  deriving Repr, DecidableEq

/-- tswrite.c:512-513: a "silly" rate (< 1.0) means we have not started
yet, so use the configured byte rate. -/
def effective_pcr_rate (w : buffered_TS_output) (s : rate_state) : ℚ :=
  if s.pcr_rate < 1 then (w.rate : ℚ) else s.pcr_rate

/-- tswrite.c:524: `TS_PACKET_SIZE * circular->TS_in_item * writer->prime_size`. -/
def prime_bytes (w : buffered_TS_output) : Int :=
  TS_PACKET_SIZE * w.TS_in_item * w.prime_size

/-- tswrite.c:525-526: `available_bytes * 1000000.0 / (pcr_rate * prime_speedup/100.0)`. -/
def prime_time (w : buffered_TS_output) (rate0 : ℚ) : ℚ :=
  (prime_bytes w : ℚ) * 1000000 / (rate0 * (w.prime_speedup : ℚ) / 100)

/-- The credit pool `(available_bytes, available_time)` after the
re-priming step at tswrite.c:521-537 (re-primed exactly when either
component is non-positive). -/
def primed_pool (w : buffered_TS_output) (s : rate_state) : Int × ℚ :=
  if s.available_bytes ≤ 0 ∨ s.available_time ≤ 0 then
    (prime_bytes w, prime_time w (effective_pcr_rate w s))
  else
    (s.available_bytes, s.available_time)

/-- The `(initial_prime_time, initial_prime_bytes)` pair after the priming
step (tswrite.c:532-536: recorded only while the second PCR has not been
seen). -/
def primed_initials (w : buffered_TS_output) (s : rate_state) : ℚ × Int :=
  if (s.available_bytes ≤ 0 ∨ s.available_time ≤ 0) ∧ ¬ s.had_second_pcr then
    (prime_time w (effective_pcr_rate w s), prime_bytes w)
  else
    (s.initial_prime_time, s.initial_prime_bytes)

/-- tswrite.c:554: `num_bytes = TS_PACKET_SIZE * writer->num_packets`. -/
def item_bytes (packets : List packet_data) : Int :=
  TS_PACKET_SIZE * packets.length

/-- tswrite.c:555: `num_microseconds = (num_bytes / available_bytes) * available_time`
computed against the primed pool. -/
def item_microseconds (w : buffered_TS_output) (packets : List packet_data)
    (s : rate_state) : ℚ :=
  (item_bytes packets : ℚ) / ((primed_pool w s).1 : ℚ) * (primed_pool w s).2

/-- tswrite.c:556: `timestamp = (uint32_t)(last_timestamp + num_microseconds)`.
The `double` → `uint32_t` conversion is modelled as floor followed by
reduction modulo 2^32 (they agree on the non-negative in-range values the
source produces). -/
def item_timestamp (w : buffered_TS_output) (packets : List packet_data)
    (s : rate_state) : Int :=
  (Int.floor ((s.last_timestamp : ℚ) + item_microseconds w packets s)) % U32

/-- tswrite.c:544-551: the first packet of the item that carries a PCR
(later PCRs in the same item are deliberately ignored by the source). -/
def first_pcr (packets : List packet_data) : Option packet_data :=
  packets.find? (fun p => p.got_pcr)

/-- The PCR-derived rate computed at tswrite.c:597:
`pcr_rate = (delta_bytes * 27.0 / delta_pcr) * 1000000`. -/
def pcr_rate_update (delta_bytes delta_pcr : Int) : ℚ :=
  ((delta_bytes : ℚ) * 27 / (delta_pcr : ℚ)) * 1000000

/-- One call of `set_buffer_item_time_pcr` (tswrite.c:478-651), returning
the updated static state; the timestamp stored into the circular buffer
item is the `last_timestamp` field of the result (tswrite.c:649). -/
def set_buffer_item_time_pcr (w : buffered_TS_output) (packets : List packet_data)
    (s : rate_state) : rate_state :=
  let rate0 := effective_pcr_rate w s
  let ab := (primed_pool w s).1
  let at0 := (primed_pool w s).2
  let ipt := (primed_initials w s).1
  let ipb := (primed_initials w s).2
  let num_bytes := item_bytes packets
  let num_microseconds := item_microseconds w packets s
  let timestamp := item_timestamp w packets s
  -- tswrite.c:558-559: deduct this item's cost from the pool
  let ab1 := ab - num_bytes
  let at1 := at0 - num_microseconds
  let base : rate_state :=
    { s with
      pcr_rate := rate0
      available_bytes := ab1
      available_time := at1
      initial_prime_time := ipt
      initial_prime_bytes := ipb
      last_timestamp := timestamp }
  match first_pcr packets with
  | none => base
  | some p =>
    let afterPCR :=
      if p.pcr < s.last_pcr then
        -- tswrite.c:569-581: PCR went backwards - fake a fresh start
        { base with
          had_first_pcr := false
          had_second_pcr := false
          available_bytes := 0
          available_time := 0 }
      else if ¬ s.had_first_pcr then
        -- tswrite.c:582-589: first PCR - just remember it
        { base with had_first_pcr := true }
      else
        -- tswrite.c:590-643: second or later PCR
        let delta_pcr : Int := p.pcr - s.last_pcr
        let delta_bytes : Int := (p.index - s.last_pcr_index) * TS_PACKET_SIZE
        let pcr_rate1 := pcr_rate_update delta_bytes delta_pcr
        let extra_time : ℚ := (delta_bytes : ℚ) * 1000000 / pcr_rate1
        let at2 := at1 + extra_time
        -- tswrite.c:623-642: on the second PCR, undo the initial priming
        let at3 := if ¬ s.had_second_pcr
                   then at2 - ipt + (ipb : ℚ) * 1000000 / pcr_rate1
                   else at2
        { base with
          pcr_rate := pcr_rate1
          available_bytes := ab1 + delta_bytes
          available_time := at3
          had_second_pcr := true }
    -- tswrite.c:644-646: performed whenever a PCR was found
    { afterPCR with
      last_timestamp_near_PCR := timestamp
      last_pcr := p.pcr
      last_pcr_index := p.index }

/-- The elapsed time computed at tswrite.c:666 before the `uint32_t`
conversion: `num_bytes * 1000000.0 / writer->rate`, truncated. -/
def plain_elapsed_raw (rate : Int) (num_packets : Nat) : Int :=
  Int.floor (((TS_PACKET_SIZE * num_packets : Int) : ℚ) * 1000000 / (rate : ℚ))

/-- tswrite.c:666: `(uint32_t)(num_bytes * 1000000.0 / writer->rate)`. -/
def plain_elapsed (rate : Int) (num_packets : Nat) : Int :=
  (Int.floor (((TS_PACKET_SIZE * num_packets : Int) : ℚ) * 1000000 / (rate : ℚ))) % U32

/-- One call of `set_buffer_item_time_plain` (tswrite.c:661-670):
`last_time += elapsed_time` in `uint32_t` arithmetic; the result is both
the new static `last_time` and the item's stamped time. -/
def set_buffer_item_time_plain (rate : Int) (num_packets : Nat) (last_time : Int) : Int :=
  (last_time + plain_elapsed rate num_packets) % U32

/-- The times stamped on a run of items in plain-rate mode, one entry of
the input list (packets per item) per committed item. -/
def plain_times (rate : Int) : List Nat → Int → List Int
  | [], _ => []
  | n :: ns, last =>
    let t := set_buffer_item_time_plain rate n last
    t :: plain_times rate ns t

/-! ## Circular buffer indices (map_circular_buffer, tswrite.c:144-229) -/

/-- The index fields of the circular buffer header.  The source's `end`
field is called `end_` because `end` is a Lean keyword. -/
structure circular_buffer where
  size : Nat
  start : Nat
  end_ : Nat
  deriving Repr, DecidableEq

/-- `circular_buffer_empty` (tswrite.c:218-221). -/
def circular_buffer_empty (c : circular_buffer) : Bool :=
  c.start == (c.end_ + 1) % c.size

/-- `circular_buffer_full` (tswrite.c:226-229). -/
def circular_buffer_full (c : circular_buffer) : Bool :=
  (c.end_ + 2) % c.size == c.start

/-- Initial indices from `map_circular_buffer` (tswrite.c:180-182):
`start = 1`, `end = 0`, paired with a ghost count of committed-but-unread
items (puts minus gets). -/
def ring_init (sz : Nat) : circular_buffer × Int :=
  (⟨sz, 1, 0⟩, 0)

/-- The index protocol of the producer and consumer: the producer advances
`end` only after `wait_if_buffer_full` has seen the buffer not full
(write_to_buffered_TS_output / add_eof_entry), and the consumer advances
`start` only after `wait_if_buffer_empty` has seen it not empty
(write_circular_data / received_EOF).  The `Int` component counts the
items currently held. -/
inductive ring_step : circular_buffer × Int → circular_buffer × Int → Prop
  | put (c : circular_buffer) (n : Int) (h : circular_buffer_full c = false) :
      ring_step (c, n) ({ c with end_ := (c.end_ + 1) % c.size }, n + 1)
  | get (c : circular_buffer) (n : Int) (h : circular_buffer_empty c = false) :
      ring_step (c, n) ({ c with start := (c.start + 1) % c.size }, n - 1)

/-- States reachable from the freshly mapped buffer. -/
def ring_reachable (sz : Nat) (s : circular_buffer × Int) : Prop :=
  Relation.ReflTransGen ring_step (ring_init sz) s

/-! ## Items, the EOF sentinel and the child loop -/

/-- A circular buffer item header (`circular_buffer_item`) together with
its slice of the payload area `item_data`. -/
structure circ_item where
  length : Int
  time : Int
  discontinuity : Bool
  data : List Int
  deriving Repr, DecidableEq

/-- The sentinel test performed by `received_EOF` (tswrite.c:1436):
`length == 1 && buffer[0] == 1`. -/
def is_EOF_item (i : circ_item) : Bool :=
  i.length == 1 && i.data.headD 0 == 1

/-- `received_EOF` (tswrite.c:1431-1454): if the front item is the
sentinel, release the slot (advance `start`) and report TRUE; otherwise
leave the indices alone and report FALSE. -/
def received_EOF (c : circular_buffer) (front : circ_item) : Bool × circular_buffer :=
  if is_EOF_item front then (true, { c with start := (c.start + 1) % c.size })
  else (false, c)

/-- `add_eof_entry` (tswrite.c:704-739) at the item level: stamp the time
with the normal `set_buffer_item_time` mechanism (PCR mode; at this point
`num_packets` is 0, because every path into `add_eof_entry` goes through a
flush or starts with an empty open item), then commit an entry of length 1
whose first payload byte is 1. -/
def add_eof_entry (w : buffered_TS_output) (s : rate_state) : circ_item × rate_state :=
  let s1 := set_buffer_item_time_pcr w [] s
  ({ length := 1, time := s1.last_timestamp, discontinuity := false, data := [1] }, s1)

/-- `internal_flush_buffered_TS_output` (tswrite.c:751-766): stamp the
open item's time and commit it. -/
def internal_flush (w : buffered_TS_output) (packets : List packet_data)
    (data : List Int) (s : rate_state) : circ_item × rate_state :=
  let s1 := set_buffer_item_time_pcr w packets s
  ({ length := TS_PACKET_SIZE * packets.length, time := s1.last_timestamp,
     discontinuity := false, data := data }, s1)

/-- `write_EOF_to_buffered_TS_output` (tswrite.c:779-800): flush the open
item if it has content (`writer->started && length > 0`), then commit the
EOF sentinel.  The first component lists the items appended to the
circular buffer, in order. -/
def write_EOF_to_buffered_TS_output (w : buffered_TS_output) (started : Bool)
    (packets : List packet_data) (data : List Int) (s : rate_state) :
    List circ_item × rate_state :=
  if started ∧ 0 < TS_PACKET_SIZE * packets.length then
    let f := internal_flush w packets data s
    let e := add_eof_entry w f.2
    ([f.1, e.1], e.2)
  else
    let e := add_eof_entry w s
    ([e.1], e.2)

/-- The sends performed by the child loop (`tswrite_child_process`,
tswrite.c:1724-1737) over a committed item sequence: each iteration first
checks `received_EOF` (stop without sending, tswrite.c:1579-1583) and
otherwise sends the item and releases its slot.  `some sent` means the
loop terminated; `none` means it ran out of committed items (the child
would poll forever in `wait_if_buffer_empty`). -/
def tswrite_child_sends : List circ_item → Option (List circ_item)
  | [] => none
  | i :: rest =>
    if is_EOF_item i then some []
    else (tswrite_child_sends rest).map (i :: ·)

/-! ## The consumer pacing loop (write_from_circular, tswrite.c:1503-1700) -/

/-- Pacing configuration: `maxnowait` and `waitfor` from the circular
buffer header, plus the global perturbation range (`global_perturb_range`). -/
structure pacer_config where
  maxnowait : Int
  waitfor : Int
  perturb_range : Nat
  deriving Repr, DecidableEq

/-- The static locals of `write_from_circular` that carry state across
iterations (tswrite.c:1514-1544; `starting` and `count` are omitted, they
only control the initial fill wait and a debug message). -/
structure pacer_state where
  reset : Bool
  delta_start : Int
  sent_without_delay : Int
  last_packet_time : Int
  deriving Repr, DecidableEq

/-- Wrap an integer to the value range of a C `int32_t`. -/
def toInt32 (n : Int) : Int :=
  (n + 2147483648) % 4294967296 - 2147483648

/-- The drift policy (tswrite.c:1632-1665): given `waitfor`, return the
adjusted `waitfor` and whether a timeline reset was requested.  With a
nonzero perturbation range the large-lateness branch deliberately does
nothing (tswrite.c:1644). -/
def drift_policy (perturb_range : Nat) (waitfor : Int) : Int × Bool :=
  if 0 < waitfor then (waitfor, false)
  else if -200000 < waitfor then (0, false)
  else if perturb_range = 0 then (0, true)
  else (waitfor, false)

/-- The burst guard (tswrite.c:1669-1684): when the send would be
immediate and `maxnowait` is enabled, either count it in
`sent_without_delay` or force a wait of the configured `waitfor`
microseconds.  Returns the final `waitfor` and the updated counter. -/
def burst_guard (cfg : pacer_config) (waitfor swd : Int) : Int × Int :=
  if waitfor = 0 ∧ cfg.maxnowait ≠ -1 then
    if swd < cfg.maxnowait then (waitfor, swd + 1)
    else (cfg.waitfor, swd)
  else (waitfor, swd)

/-- Result of one pacing iteration: the microseconds slept before the
send, and the updated static state. -/
structure pacer_result where
  slept : Int
  state : pacer_state
  deriving Repr, DecidableEq

/-- One non-EOF iteration of `write_from_circular` (tswrite.c:1585-1699).
`our_time_now` is the consumer's (possibly perturbed) clock reading,
supplied as an oracle input; on a reset or discontinuity iteration the
source re-anchors `start` to now, zeroes `our_time_now`, sets
`delta_start` to the item time and `waitfor` to 0 (tswrite.c:1605-1617). -/
def write_from_circular_step (cfg : pacer_config) (st : pacer_state)
    (item_time : Int) (item_discontinuity : Bool) (our_time_now : Int) :
    pacer_result :=
  let waitfor0 : Int :=
    if st.reset ∨ item_discontinuity then 0
    else toInt32 (item_time - (our_time_now + st.delta_start))
  let delta' : Int :=
    if st.reset ∨ item_discontinuity then item_time else st.delta_start
  let d := drift_policy cfg.perturb_range waitfor0
  let bg := burst_guard cfg d.1 st.sent_without_delay
  let slept := if 0 < bg.1 then bg.1 else 0
  let swd' := if 0 < bg.1 then 0 else bg.2
  { slept := slept
    state := { reset := d.2, delta_start := delta',
               sent_without_delay := swd', last_packet_time := item_time } }

/-- A run of consecutive pacing iterations over a list of
(item time, discontinuity flag, clock reading) inputs, collecting the
sleep performed before each send. -/
def pacer_run (cfg : pacer_config) :
    pacer_state → List (Int × Bool × Int) → List Int × pacer_state
  | st, [] => ([], st)
  | st, (t, disc, now) :: rest =>
    let r := write_from_circular_step cfg st t disc now
    let k := pacer_run cfg r.state rest
    (r.slept :: k.1, k.2)

/-! ## Sink write paths -/

/-- `write_file_data` (tswrite.c:916-929) on a successful `fwrite`: the
payload is handed to the sink unconditionally (the source performs no
sync-byte check on this path).  Result: (return code, bytes delivered). -/
def write_file_data (data : List Int) : Int × List Int :=
  (0, data)

/-- `write_socket_data` (tswrite.c:940-977) on a successful `send`: a
payload whose first byte is not 0x47 is refused with return code 0 and
nothing transmitted (tswrite.c:947-950); otherwise every byte is sent.
Result: (return code, bytes delivered). -/
def write_socket_data (data : List Int) : Int × List Int :=
  if data.headD 0 ≠ 0x47 then (0, [])
  else (0, data)

/-! ## The command channel (read_command, tswrite.c:990-1204) -/

/-- Modelled from the spec: the `COMMAND_*` codes of tswrite_fns.h (the
header is not part of src/); the spec's command set in section 6. -/
inductive Command where
  | COMMAND_QUIT
  | COMMAND_NORMAL
  | COMMAND_PAUSE
  | COMMAND_FAST
  | COMMAND_FAST_FAST
  | COMMAND_REVERSE
  | COMMAND_FAST_REVERSE
  | COMMAND_SKIP_FORWARD
  | COMMAND_SKIP_BACKWARD
  | COMMAND_SKIP_FORWARD_LOTS
  | COMMAND_SKIP_BACKWARD_LOTS
  | COMMAND_SELECT_FILE_0
  | COMMAND_SELECT_FILE_1
  | COMMAND_SELECT_FILE_2
  | COMMAND_SELECT_FILE_3
  | COMMAND_SELECT_FILE_4
  | COMMAND_SELECT_FILE_5
  | COMMAND_SELECT_FILE_6
  | COMMAND_SELECT_FILE_7
  | COMMAND_SELECT_FILE_8
  | COMMAND_SELECT_FILE_9
  deriving Repr, DecidableEq

/-- Outcome of the one-byte `read` on the command socket. -/
inductive read_outcome where
  | at_eof
  | read_error
  | got (b : Nat)
  deriving Repr, DecidableEq

/-- The byte values the switch in `read_command` recognizes
(tswrite.c:1021-1202), as ASCII codes. -/
def recognized_command_bytes : List Nat :=
  [113, 110, 112, 102, 70, 114, 82, 62, 60, 93, 91,
   48, 49, 50, 51, 52, 53, 54, 55, 56, 57]

/-- `read_command` (tswrite.c:990-1204): EOF and read errors synthesize
`COMMAND_QUIT` with the changed flag set and still return 0; a recognized
byte installs its command and sets the changed flag; newline and every
other byte leave both outputs untouched.  Every path returns 0. -/
def read_command (r : read_outcome) (cmd : Command) (changed : Bool) :
    Command × Bool × Int :=
  match r with
  | .at_eof => (.COMMAND_QUIT, true, 0)
  | .read_error => (.COMMAND_QUIT, true, 0)
  | .got b =>
    if b = 113 then (.COMMAND_QUIT, true, 0)
    else if b = 110 then (.COMMAND_NORMAL, true, 0)
    else if b = 112 then (.COMMAND_PAUSE, true, 0)
    else if b = 102 then (.COMMAND_FAST, true, 0)
    else if b = 70 then (.COMMAND_FAST_FAST, true, 0)
    else if b = 114 then (.COMMAND_REVERSE, true, 0)
    else if b = 82 then (.COMMAND_FAST_REVERSE, true, 0)
    else if b = 62 then (.COMMAND_SKIP_FORWARD, true, 0)
    else if b = 60 then (.COMMAND_SKIP_BACKWARD, true, 0)
    else if b = 93 then (.COMMAND_SKIP_FORWARD_LOTS, true, 0)
    else if b = 91 then (.COMMAND_SKIP_BACKWARD_LOTS, true, 0)
    else if b = 48 then (.COMMAND_SELECT_FILE_0, true, 0)
    else if b = 49 then (.COMMAND_SELECT_FILE_1, true, 0)
    else if b = 50 then (.COMMAND_SELECT_FILE_2, true, 0)
    else if b = 51 then (.COMMAND_SELECT_FILE_3, true, 0)
    else if b = 52 then (.COMMAND_SELECT_FILE_4, true, 0)
    else if b = 53 then (.COMMAND_SELECT_FILE_5, true, 0)
    else if b = 54 then (.COMMAND_SELECT_FILE_6, true, 0)
    else if b = 55 then (.COMMAND_SELECT_FILE_7, true, 0)
    else if b = 56 then (.COMMAND_SELECT_FILE_8, true, 0)
    else if b = 57 then (.COMMAND_SELECT_FILE_9, true, 0)
    else (cmd, changed, 0)

/-! ## The packet-dropping gate of tswrite_write (tswrite.c:2435-2509) -/

/-- The static locals of the drop gate plus the writer's packet counter
(`tswriter->count`; it is incremented only when the packet is actually
forwarded to the output). -/
structure drop_state where
  packet_count : Int
  drop_count : Int
  count : Int
  deriving Repr, DecidableEq

/-- One call of `tswrite_write` reduced to its drop decision
(tswrite.c:2443-2473): the Bool is true when the packet is forwarded to
the output (in which case `count` advances), false when it is silently
discarded with return value 0. -/
def tswrite_write_gate (drop_packets drop_number : Int) (s : drop_state) :
    Bool × drop_state :=
  if drop_packets ≠ 0 then
    if 0 < s.drop_count then
      (false, { s with drop_count := s.drop_count - 1 })
    else if s.packet_count < drop_packets then
      (true, { s with packet_count := s.packet_count + 1, count := s.count + 1 })
    else
      (false, { s with packet_count := 0, drop_count := drop_number - 1 })
  else
    (true, { s with count := s.count + 1 })

/-- A sequence of `tswrite_write` calls: the list records, per call,
whether the packet was forwarded. -/
def tswrite_write_run (drop_packets drop_number : Int) (s : drop_state) :
    Nat → List Bool × drop_state
  | 0 => ([], s)
  | k + 1 =>
    let g := tswrite_write_gate drop_packets drop_number s
    let rest := tswrite_write_run drop_packets drop_number g.2 k
    (g.1 :: rest.1, rest.2)

/-- The `-buffer` option validation in `tswrite_process_args`
(tswrite.c:2848-2861): only `circ_buf_size < 1` is rejected, so 1 is the
smallest permitted buffer size. -/
def circ_buf_size_permitted (n : Int) : Bool :=
  if n < 1 then false else true

/-- The number of committed-but-unread items encoded by the ring indices
(one-slot-empty convention). -/
def ring_count (c : circular_buffer) : Int :=
  ((c.end_ : Int) + 1 - c.start) % (c.size : Int)

/-- The invariant tying the ghost item count to the indices. -/
def ring_inv (sz : Nat) (s : circular_buffer × Int) : Prop :=
  s.1.size = sz ∧ s.1.start < sz ∧ s.1.end_ < sz ∧ s.2 = ring_count s.1

/-! ## Theorems -/

/-- C9: every recognized command byte installs its command with the
changed flag set; newline and unrecognized bytes leave command and flag
untouched; EOF and read errors synthesize `COMMAND_QUIT` with the flag
set; every path returns 0 (not a fatal error). -/
theorem read_command_spec (cmd : Command) (changed : Bool) (b : Nat)
    (hb : b ∉ recognized_command_bytes) :
    read_command .at_eof cmd changed = (.COMMAND_QUIT, true, 0) ∧
    read_command .read_error cmd changed = (.COMMAND_QUIT, true, 0) ∧
    recognized_command_bytes.map (fun x => read_command (.got x) cmd changed) =
      [(.COMMAND_QUIT, true, 0), (.COMMAND_NORMAL, true, 0),
       (.COMMAND_PAUSE, true, 0), (.COMMAND_FAST, true, 0),
       (.COMMAND_FAST_FAST, true, 0), (.COMMAND_REVERSE, true, 0),
       (.COMMAND_FAST_REVERSE, true, 0), (.COMMAND_SKIP_FORWARD, true, 0),
       (.COMMAND_SKIP_BACKWARD, true, 0), (.COMMAND_SKIP_FORWARD_LOTS, true, 0),
       (.COMMAND_SKIP_BACKWARD_LOTS, true, 0), (.COMMAND_SELECT_FILE_0, true, 0),
       (.COMMAND_SELECT_FILE_1, true, 0), (.COMMAND_SELECT_FILE_2, true, 0),
       (.COMMAND_SELECT_FILE_3, true, 0), (.COMMAND_SELECT_FILE_4, true, 0),
       (.COMMAND_SELECT_FILE_5, true, 0), (.COMMAND_SELECT_FILE_6, true, 0),
       (.COMMAND_SELECT_FILE_7, true, 0), (.COMMAND_SELECT_FILE_8, true, 0),
       (.COMMAND_SELECT_FILE_9, true, 0)] ∧
    read_command (.got 10) cmd changed = (cmd, changed, 0) ∧
    read_command (.got b) cmd changed = (cmd, changed, 0) := by
  refine ⟨rfl, rfl, rfl, rfl, ?_⟩
  simp only [recognized_command_bytes, List.mem_cons, List.not_mem_nil, or_false,
    not_or] at hb
  obtain ⟨n1, n2, n3, n4, n5, n6, n7, n8, n9, n10, n11, n12, n13, n14, n15, n16,
    n17, n18, n19, n20, n21⟩ := hb
  simp [read_command, n1, n2, n3, n4, n5, n6, n7, n8, n9, n10, n11, n12, n13,
    n14, n15, n16, n17, n18, n19, n20, n21]

/-- Witness for `read_command_spec` at the unrecognized byte 65. -/
theorem read_command_spec_witness :
    (65 : Nat) ∉ recognized_command_bytes ∧
    (read_command .at_eof .COMMAND_PAUSE false = (.COMMAND_QUIT, true, 0) ∧
     read_command .read_error .COMMAND_PAUSE false = (.COMMAND_QUIT, true, 0) ∧
     recognized_command_bytes.map (fun x => read_command (.got x) .COMMAND_PAUSE false) =
       [(.COMMAND_QUIT, true, 0), (.COMMAND_NORMAL, true, 0),
        (.COMMAND_PAUSE, true, 0), (.COMMAND_FAST, true, 0),
        (.COMMAND_FAST_FAST, true, 0), (.COMMAND_REVERSE, true, 0),
        (.COMMAND_FAST_REVERSE, true, 0), (.COMMAND_SKIP_FORWARD, true, 0),
        (.COMMAND_SKIP_BACKWARD, true, 0), (.COMMAND_SKIP_FORWARD_LOTS, true, 0),
        (.COMMAND_SKIP_BACKWARD_LOTS, true, 0), (.COMMAND_SELECT_FILE_0, true, 0),
        (.COMMAND_SELECT_FILE_1, true, 0), (.COMMAND_SELECT_FILE_2, true, 0),
        (.COMMAND_SELECT_FILE_3, true, 0), (.COMMAND_SELECT_FILE_4, true, 0),
        (.COMMAND_SELECT_FILE_5, true, 0), (.COMMAND_SELECT_FILE_6, true, 0),
        (.COMMAND_SELECT_FILE_7, true, 0), (.COMMAND_SELECT_FILE_8, true, 0),
        (.COMMAND_SELECT_FILE_9, true, 0)] ∧
     read_command (.got 10) .COMMAND_PAUSE false = (.COMMAND_PAUSE, false, 0) ∧
     read_command (.got 65) .COMMAND_PAUSE false = (.COMMAND_PAUSE, false, 0)) :=
  ⟨by decide, read_command_spec .COMMAND_PAUSE false 65 (by decide)⟩

/-- C8 counterexample: the file/stdout write path delivers a payload whose
first byte is not 0x47 (the source's `write_file_data` performs no
sync-byte check), contradicting the claim that every sink variant refuses
such payloads without transmitting. -/
theorem write_file_data_no_sync_check :
    (write_file_data [1, 2]).2 = [1, 2] ∧
    (write_file_data [1, 2]).2 ≠ [] ∧
    ((write_file_data [1, 2]).2).headD 0 ≠ 0x47 := by
  decide

/-- C8 (amended): only the socket path (`write_socket_data`, used for TCP
and UDP and by the buffering consumer) refuses a payload whose first byte
is not 0x47, returning success without transmitting; the file/stdout path
(`write_file_data`) writes the payload unconditionally. -/
theorem write_data_sync_guard (bad good : List Int)
    (hbad : bad.headD 0 ≠ 0x47) (hgood : good.headD 0 = 0x47) :
    write_socket_data bad = (0, []) ∧
    write_socket_data good = (0, good) ∧
    write_file_data bad = (0, bad) := by
  refine ⟨?_, ?_, rfl⟩
  · simp only [write_socket_data]
    rw [if_pos hbad]
  · simp only [write_socket_data]
    rw [if_neg (not_not.mpr hgood)]

/-- Witness for `write_data_sync_guard`. -/
theorem write_data_sync_guard_witness :
    ([1, 2] : List Int).headD 0 ≠ 0x47 ∧ ([0x47, 9] : List Int).headD 0 = 0x47 ∧
    (write_socket_data [1, 2] = (0, []) ∧
     write_socket_data [0x47, 9] = (0, [0x47, 9]) ∧
     write_file_data [1, 2] = (0, [1, 2])) :=
  ⟨by decide, by decide, write_data_sync_guard [1, 2] [0x47, 9] (by decide) (by decide)⟩

/-- C10 counterexample: with `drop_packets = 1` and `drop_number = 0` the
claimed cycle would forward every call (one forwarded, zero discarded),
but the source discards the second call (it sets `drop_count = -1` and
returns 0). -/
theorem tswrite_write_drop_zero_counterexample :
    (tswrite_write_run 1 0 ⟨0, 0, 0⟩ 2).1 = [true, false] ∧
    (tswrite_write_run 1 0 ⟨0, 0, 0⟩ 2).1 ≠ [true, true] ∧
    (tswrite_write_run 1 0 ⟨0, 0, 0⟩ 2).2.count = 1 := by
  decide

/-- Splitting a run of `tswrite_write` calls. -/
theorem tswrite_write_run_add (dp dn : Int) (s : drop_state) (k1 k2 : Nat) :
    tswrite_write_run dp dn s (k1 + k2) =
      ((tswrite_write_run dp dn s k1).1 ++
        (tswrite_write_run dp dn (tswrite_write_run dp dn s k1).2 k2).1,
       (tswrite_write_run dp dn (tswrite_write_run dp dn s k1).2 k2).2) := by
  induction k1 generalizing s with
  | zero => simp [tswrite_write_run]
  | succ k ih =>
    have : k + 1 + k2 = (k + k2) + 1 := by omega
    rw [this]
    simp only [tswrite_write_run, ih]
    simp

/-- The forwarding phase of the drop cycle: while `packet_count` has not
reached `drop_packets` (and `drop_count` is 0) every call is forwarded and
both `packet_count` and `count` advance. -/
theorem tswrite_write_forward_phase (n m c p : Int) (k : Nat)
    (hn : 0 < n) (hk : p + k ≤ n) :
    tswrite_write_run n m ⟨p, 0, c⟩ k =
      (List.replicate k true, ⟨p + k, 0, c + k⟩) := by
  induction k generalizing p c with
  | zero => simp [tswrite_write_run]
  | succ k ih =>
    have hpn : p < n := by omega
    have hgate : tswrite_write_gate n m ⟨p, 0, c⟩ =
        (true, ⟨p + 1, 0, c + 1⟩) := by
      simp [tswrite_write_gate, hn.ne', hpn]
    have hrest : p + 1 + (k : Int) ≤ n := by omega
    simp only [tswrite_write_run, hgate, ih (c + 1) (p + 1) hrest,
      List.replicate_succ, Prod.mk.injEq, drop_state.mk.injEq, true_and, and_true]
    omega

/-- The discarding phase of the drop cycle: while `drop_count` is
positive every call is discarded and only `drop_count` changes. -/
theorem tswrite_write_drop_phase (n m c d : Int) (k : Nat)
    (hn : n ≠ 0) (hk : (k : Int) ≤ d) :
    tswrite_write_run n m ⟨0, d, c⟩ k =
      (List.replicate k false, ⟨0, d - k, c⟩) := by
  induction k generalizing d with
  | zero => simp [tswrite_write_run]
  | succ k ih =>
    have hd : 0 < d := by omega
    have hgate : tswrite_write_gate n m ⟨0, d, c⟩ =
        (false, ⟨0, d - 1, c⟩) := by
      simp [tswrite_write_gate, hn, hd]
    have hrest : (k : Int) ≤ d - 1 := by omega
    simp only [tswrite_write_run, hgate, ih (d - 1) hrest,
      List.replicate_succ, Prod.mk.injEq, drop_state.mk.injEq, true_and, and_true]
    omega

/-- One full drop cycle: from a fresh gate state, `drop_packets` calls are
forwarded, then `drop_number` calls are discarded, `count` advances by
exactly `drop_packets`, and the gate state returns to fresh. -/
theorem tswrite_write_one_cycle (n m c : Int) (hn : 0 < n) (hm : 1 ≤ m) :
    tswrite_write_run n m ⟨0, 0, c⟩ (n.toNat + m.toNat) =
      (List.replicate n.toNat true ++ List.replicate m.toNat false,
       ⟨0, 0, c + n⟩) := by
  have hfwd : tswrite_write_run n m ⟨0, 0, c⟩ n.toNat =
      (List.replicate n.toNat true, ⟨n, 0, c + n⟩) := by
    have h := tswrite_write_forward_phase n m c 0 n.toNat hn (by omega)
    rw [h, show (0 : Int) + (n.toNat : Int) = n by omega,
      show c + (n.toNat : Int) = c + n by omega]
  have hgate : tswrite_write_gate n m ⟨n, 0, c + n⟩ =
      (false, ⟨0, m - 1, c + n⟩) := by
    simp [tswrite_write_gate, hn.ne']
  have hone : tswrite_write_run n m ⟨n, 0, c + n⟩ 1 = ([false], ⟨0, m - 1, c + n⟩) := by
    simp [tswrite_write_run, hgate]
  have hdrop : tswrite_write_run n m ⟨0, m - 1, c + n⟩ (m.toNat - 1) =
      (List.replicate (m.toNat - 1) false, ⟨0, 0, c + n⟩) := by
    have h := tswrite_write_drop_phase n m (c + n) (m - 1) (m.toNat - 1)
      hn.ne' (by omega)
    rw [h, show m - 1 - ((m.toNat - 1 : Nat) : Int) = 0 by omega]
  have hsplit : n.toNat + m.toNat = n.toNat + (1 + (m.toNat - 1)) := by omega
  rw [hsplit, tswrite_write_run_add n m _ n.toNat (1 + (m.toNat - 1)), hfwd]
  dsimp only
  rw [tswrite_write_run_add n m _ 1 (m.toNat - 1), hone]
  dsimp only
  rw [hdrop]
  dsimp only
  rw [show m.toNat = (m.toNat - 1) + 1 by omega]
  simp [List.replicate_succ]

/-- C10 (amended: `drop_number = m ≥ 1`): with `drop_packets = n > 0` and
`drop_number = m ≥ 1`, the calls to `tswrite_write` follow a repeating
cycle of `n` forwarded calls followed by `m` silently discarded calls
(each discarded call still returns 0), and only forwarded calls advance
the writer's packet count. -/
theorem tswrite_write_drop_cycle (n m c : Int) (k : Nat)
    (hn : 0 < n) (hm : 1 ≤ m) :
    tswrite_write_run n m ⟨0, 0, c⟩ (k * (n.toNat + m.toNat)) =
      ((List.replicate k
          (List.replicate n.toNat true ++ List.replicate m.toNat false)).flatten,
       ⟨0, 0, c + k * n⟩) := by
  induction k generalizing c with
  | zero => simp [tswrite_write_run]
  | succ k ih =>
    have hs : (k + 1) * (n.toNat + m.toNat) = (n.toNat + m.toNat) + k * (n.toNat + m.toNat) := by
      ring
    rw [hs, tswrite_write_run_add n m _ (n.toNat + m.toNat) (k * (n.toNat + m.toNat)),
      tswrite_write_one_cycle n m c hn hm]
    dsimp only
    rw [ih (c + n)]
    dsimp only
    simp only [List.replicate_succ, List.flatten_cons, List.append_assoc,
      Prod.mk.injEq, drop_state.mk.injEq, true_and, and_true]
    push_cast
    ring

/-- Witness for `tswrite_write_drop_cycle`: two full cycles with
`drop_packets = 2`, `drop_number = 1`. -/
theorem tswrite_write_drop_cycle_witness :
    (0 : Int) < 2 ∧ (1 : Int) ≤ 1 ∧
    tswrite_write_run 2 1 ⟨0, 0, 0⟩ (2 * ((2 : Int).toNat + (1 : Int).toNat)) =
      ((List.replicate 2
          (List.replicate (2 : Int).toNat true ++ List.replicate (1 : Int).toNat false)).flatten,
       ⟨0, 0, 0 + 2 * 2⟩) :=
  ⟨by decide, by decide, tswrite_write_drop_cycle 2 1 0 2 (by decide) (by decide)⟩

/-- `toInt32` is the identity on the `int32_t` range. -/
theorem toInt32_eq_self (n : Int) (h1 : -2147483648 ≤ n) (h2 : n < 2147483648) :
    toInt32 n = n := by
  unfold toInt32
  rw [Int.emod_eq_of_lt (by omega) (by omega)]
  omega

/-- On a non-reset, non-discontinuity iteration the step is the drift
policy followed by the burst guard, applied to the claimed
`waitfor = item.time_us - (our_time_now + delta_start)`. -/
theorem write_from_circular_step_no_reset (cfg : pacer_config) (st : pacer_state)
    (t now : Int) (hr : st.reset = false)
    (hlo : -2147483648 ≤ t - (now + st.delta_start))
    (hhi : t - (now + st.delta_start) < 2147483648) :
    write_from_circular_step cfg st t false now =
      { slept :=
          if 0 < (burst_guard cfg
              (drift_policy cfg.perturb_range (t - (now + st.delta_start))).1
              st.sent_without_delay).1
          then (burst_guard cfg
              (drift_policy cfg.perturb_range (t - (now + st.delta_start))).1
              st.sent_without_delay).1
          else 0
        state :=
          { reset := (drift_policy cfg.perturb_range (t - (now + st.delta_start))).2
            delta_start := st.delta_start
            sent_without_delay :=
              if 0 < (burst_guard cfg
                  (drift_policy cfg.perturb_range (t - (now + st.delta_start))).1
                  st.sent_without_delay).1
              then 0
              else (burst_guard cfg
                  (drift_policy cfg.perturb_range (t - (now + st.delta_start))).1
                  st.sent_without_delay).2
            last_packet_time := t } } := by
  simp only [write_from_circular_step, hr, Bool.false_eq_true, or_self, if_false,
    toInt32_eq_self _ hlo hhi]

/-- C2: on a consumer iteration that is neither a reset nor a
discontinuity iteration, with `waitfor = item.time_us - (our_time_now +
delta_start)` (in `int32_t` range): positive `waitfor` is slept in full
before the send; `-200000 < waitfor ≤ 0` is treated as 0 by the drift
policy without requesting a reset; `waitfor ≤ -200000` with the
test-perturbation range zero makes the drift policy set `waitfor = 0` and
request a reset, so the next iteration re-anchors the timeline. -/
theorem write_from_circular_drift_cases (cfg : pacer_config) (st : pacer_state)
    (t now : Int) (hr : st.reset = false)
    (hlo : -2147483648 ≤ t - (now + st.delta_start))
    (hhi : t - (now + st.delta_start) < 2147483648) :
    (0 < t - (now + st.delta_start) →
      (write_from_circular_step cfg st t false now).slept = t - (now + st.delta_start) ∧
      (write_from_circular_step cfg st t false now).state.reset = false) ∧
    (-200000 < t - (now + st.delta_start) ∧ t - (now + st.delta_start) ≤ 0 →
      drift_policy cfg.perturb_range (t - (now + st.delta_start)) = (0, false) ∧
      (write_from_circular_step cfg st t false now).state.reset = false) ∧
    (t - (now + st.delta_start) ≤ -200000 ∧ cfg.perturb_range = 0 →
      drift_policy cfg.perturb_range (t - (now + st.delta_start)) = (0, true) ∧
      (write_from_circular_step cfg st t false now).state.reset = true) := by
  rw [write_from_circular_step_no_reset cfg st t now hr hlo hhi]
  refine ⟨?_, ?_, ?_⟩
  · intro h0
    have hd : drift_policy cfg.perturb_range (t - (now + st.delta_start)) =
        (t - (now + st.delta_start), false) := by
      simp [drift_policy, h0]
    have hbg : burst_guard cfg (t - (now + st.delta_start)) st.sent_without_delay =
        (t - (now + st.delta_start), st.sent_without_delay) := by
      simp only [burst_guard]
      rw [if_neg]
      intro hc
      omega
    simp [hd, hbg, h0]
  · rintro ⟨hgt, hle⟩
    have hd : drift_policy cfg.perturb_range (t - (now + st.delta_start)) =
        (0, false) := by
      simp only [drift_policy]
      rw [if_neg (by omega), if_pos hgt]
    simp [hd]
  · rintro ⟨hle, hpr⟩
    have hd : drift_policy cfg.perturb_range (t - (now + st.delta_start)) =
        (0, true) := by
      simp only [drift_policy, hpr]
      rw [if_neg (by omega), if_neg (by omega), if_pos trivial]
    simp [hd]

/-- Witness for `write_from_circular_drift_cases`: an on-time item 100 µs
in the future. -/
theorem write_from_circular_drift_cases_witness :
    ((⟨false, 0, 0, 0⟩ : pacer_state).reset = false) ∧
    (-2147483648 ≤ (100 : Int) - (0 + (⟨false, 0, 0, 0⟩ : pacer_state).delta_start)) ∧
    ((100 : Int) - (0 + (⟨false, 0, 0, 0⟩ : pacer_state).delta_start) < 2147483648) ∧
    ((0 < (100 : Int) - (0 + (⟨false, 0, 0, 0⟩ : pacer_state).delta_start) →
      (write_from_circular_step ⟨3, 1000, 0⟩ ⟨false, 0, 0, 0⟩ 100 false 0).slept =
        100 - (0 + (⟨false, 0, 0, 0⟩ : pacer_state).delta_start) ∧
      (write_from_circular_step ⟨3, 1000, 0⟩ ⟨false, 0, 0, 0⟩ 100 false 0).state.reset = false) ∧
    (-200000 < (100 : Int) - (0 + (⟨false, 0, 0, 0⟩ : pacer_state).delta_start) ∧
        (100 : Int) - (0 + (⟨false, 0, 0, 0⟩ : pacer_state).delta_start) ≤ 0 →
      drift_policy (⟨3, 1000, 0⟩ : pacer_config).perturb_range
          (100 - (0 + (⟨false, 0, 0, 0⟩ : pacer_state).delta_start)) = (0, false) ∧
      (write_from_circular_step ⟨3, 1000, 0⟩ ⟨false, 0, 0, 0⟩ 100 false 0).state.reset = false) ∧
    ((100 : Int) - (0 + (⟨false, 0, 0, 0⟩ : pacer_state).delta_start) ≤ -200000 ∧
        (⟨3, 1000, 0⟩ : pacer_config).perturb_range = 0 →
      drift_policy (⟨3, 1000, 0⟩ : pacer_config).perturb_range
          (100 - (0 + (⟨false, 0, 0, 0⟩ : pacer_state).delta_start)) = (0, true) ∧
      (write_from_circular_step ⟨3, 1000, 0⟩ ⟨false, 0, 0, 0⟩ 100 false 0).state.reset = true)) :=
  ⟨rfl, by decide, by decide,
    write_from_circular_drift_cases ⟨3, 1000, 0⟩ ⟨false, 0, 0, 0⟩ 100 0 rfl
      (by decide) (by decide)⟩

/-- The pacing sleep is never negative. -/
theorem write_from_circular_step_slept_nonneg (cfg : pacer_config) (st : pacer_state)
    (t : Int) (disc : Bool) (now : Int) :
    0 ≤ (write_from_circular_step cfg st t disc now).slept := by
  simp only [write_from_circular_step]
  split <;> omega

/-- A send with zero pacing sleep (under an enabled burst cap, a positive
configured wait and no perturbation) is only possible while
`sent_without_delay` is strictly below `maxnowait`, and it increments the
counter. -/
theorem write_from_circular_step_zero_sleep (cfg : pacer_config) (st : pacer_state)
    (t : Int) (disc : Bool) (now : Int)
    (hmax : 0 ≤ cfg.maxnowait) (hwait : 0 < cfg.waitfor)
    (hpr : cfg.perturb_range = 0)
    (h0 : (write_from_circular_step cfg st t disc now).slept = 0) :
    st.sent_without_delay < cfg.maxnowait ∧
    (write_from_circular_step cfg st t disc now).state.sent_without_delay =
      st.sent_without_delay + 1 := by
  simp only [write_from_circular_step, drift_policy, burst_guard, hpr] at h0 ⊢
  split_ifs at h0 ⊢ <;> omega

/-- The total pacing sleep of a run is never negative. -/
theorem pacer_run_sum_nonneg (cfg : pacer_config) :
    ∀ (inputs : List (Int × Bool × Int)) (st : pacer_state),
    0 ≤ ((pacer_run cfg st inputs).1).sum := by
  intro inputs
  induction inputs with
  | nil => intro st; simp [pacer_run]
  | cons x rest ih =>
    intro st
    obtain ⟨t, disc, now⟩ := x
    simp only [pacer_run, List.sum_cons]
    have h1 := write_from_circular_step_slept_nonneg cfg st t disc now
    have h2 := ih (write_from_circular_step cfg st t disc now).state
    omega

/-- If an entire run sleeps a total of zero, its length is bounded by the
remaining burst budget. -/
theorem pacer_run_zero_sum_bound (cfg : pacer_config)
    (hmax : 0 ≤ cfg.maxnowait) (hwait : 0 < cfg.waitfor)
    (hpr : cfg.perturb_range = 0) :
    ∀ (inputs : List (Int × Bool × Int)) (st : pacer_state),
    0 ≤ st.sent_without_delay → st.sent_without_delay ≤ cfg.maxnowait →
    ((pacer_run cfg st inputs).1).sum ≤ 0 →
    (inputs.length : Int) + st.sent_without_delay ≤ cfg.maxnowait := by
  intro inputs
  induction inputs with
  | nil => intro st h1 h2 _; simp; omega
  | cons x rest ih =>
    intro st h1 h2 hzero
    obtain ⟨t, disc, now⟩ := x
    simp only [pacer_run, List.sum_cons] at hzero
    have hnn1 := write_from_circular_step_slept_nonneg cfg st t disc now
    have hnn2 := pacer_run_sum_nonneg cfg rest (write_from_circular_step cfg st t disc now).state
    have hs0 : (write_from_circular_step cfg st t disc now).slept = 0 := by omega
    obtain ⟨hlt, hswd⟩ :=
      write_from_circular_step_zero_sleep cfg st t disc now hmax hwait hpr hs0
    have hrest := ih (write_from_circular_step cfg st t disc now).state
      (by omega) (by omega) (by omega)
    rw [hswd] at hrest
    simp only [List.length_cons]
    push_cast
    omega

/-- C3 counterexample: the claimed burst-cap guarantee fails in two
permitted configurations.  First run: `maxnowait = 0`, configured
`waitfor = 0` (the option parsing only rejects negative values) — a
window of `maxnowait + 1 = 1` sends completes with total sleep 0 because
the forced wait is 0 and the counter is never reset.  Second run:
`maxnowait = 1`, `waitfor = 1000`, but perturbation range 1 — two
consecutive very-late sends (drift `waitfor ≤ -200000` is left negative
when perturbing) sleep 0 in a window of `maxnowait + 1 = 2` sends. -/
theorem burst_cap_counterexample :
    ((pacer_run ⟨0, 0, 0⟩ ⟨false, 0, 0, 0⟩ [(0, false, 0)]).1).sum = 0 ∧
    ((pacer_run ⟨1, 1000, 1⟩ ⟨false, 0, 0, 0⟩
        [(0, false, 200000), (0, false, 400000)]).1).sum = 0 := by
  decide

/-- C3 (amended: additionally requiring a positive configured `waitfor`
and no test perturbation): with the burst cap enabled
(`0 ≤ maxnowait`), every window of `maxnowait + 1` consecutive sends
(starting from any state whose counter is within the burst budget)
sleeps a strictly positive total; moreover once `sent_without_delay`
has reached `maxnowait`, a zero-`waitfor` send is forced to wait the
configured `waitfor` microseconds and the counter is then reset by the
sleep. -/
theorem burst_cap_window (cfg : pacer_config) (st : pacer_state)
    (inputs : List (Int × Bool × Int))
    (hmax : 0 ≤ cfg.maxnowait) (hwait : 0 < cfg.waitfor)
    (hpr : cfg.perturb_range = 0)
    (hswd0 : 0 ≤ st.sent_without_delay)
    (hswd : st.sent_without_delay ≤ cfg.maxnowait)
    (hlen : cfg.maxnowait + 1 ≤ (inputs.length : Int)) :
    0 < ((pacer_run cfg st inputs).1).sum ∧
    burst_guard cfg 0 cfg.maxnowait = (cfg.waitfor, cfg.maxnowait) ∧
    (∀ t now : Int, st.sent_without_delay = cfg.maxnowait →
      toInt32 (t - (now + st.delta_start)) = 0 →
      (write_from_circular_step cfg st t false now).slept = cfg.waitfor ∧
      (write_from_circular_step cfg st t false now).state.sent_without_delay = 0) := by
  refine ⟨?_, ?_, ?_⟩
  · by_contra hcon
    push_neg at hcon
    have := pacer_run_zero_sum_bound cfg hmax hwait hpr inputs st hswd0 hswd hcon
    omega
  · simp only [burst_guard]
    split_ifs with h1 h2
    · exact absurd h2 (by omega)
    · rfl
    · exact absurd ⟨trivial, by omega⟩ h1
  · intro t now hsat hw0
    have hw0' : (if st.reset = true ∨ false = true then (0 : Int)
        else toInt32 (t - (now + st.delta_start))) = 0 := by
      by_cases hres : st.reset = true
      · simp [hres]
      · simp [hres, hw0]
    have hd : drift_policy cfg.perturb_range 0 = (0, false) := by
      simp [drift_policy]
    have hbg : burst_guard cfg 0 st.sent_without_delay =
        (cfg.waitfor, st.sent_without_delay) := by
      simp only [burst_guard]
      split_ifs with h1 h2
      · exact absurd h2 (by omega)
      · rfl
      · exact absurd ⟨trivial, by omega⟩ h1
    simp only [write_from_circular_step, hw0', hd, hbg]
    constructor
    · simp [if_pos hwait]
    · simp [if_pos hwait]

/-- Witness for `burst_cap_window`: `maxnowait = 1`, `waitfor = 1000`,
window of 2 on-time sends. -/
theorem burst_cap_window_witness :
    ((0 : Int) ≤ (⟨1, 1000, 0⟩ : pacer_config).maxnowait) ∧
    ((0 : Int) < (⟨1, 1000, 0⟩ : pacer_config).waitfor) ∧
    ((⟨1, 1000, 0⟩ : pacer_config).perturb_range = 0) ∧
    ((0 : Int) ≤ (⟨false, 0, 0, 0⟩ : pacer_state).sent_without_delay) ∧
    ((⟨false, 0, 0, 0⟩ : pacer_state).sent_without_delay ≤
      (⟨1, 1000, 0⟩ : pacer_config).maxnowait) ∧
    ((⟨1, 1000, 0⟩ : pacer_config).maxnowait + 1 ≤
      (([(0, false, 0), (0, false, 0)] : List (Int × Bool × Int)).length : Int)) ∧
    (0 < ((pacer_run ⟨1, 1000, 0⟩ ⟨false, 0, 0, 0⟩ [(0, false, 0), (0, false, 0)]).1).sum ∧
     burst_guard ⟨1, 1000, 0⟩ 0 (⟨1, 1000, 0⟩ : pacer_config).maxnowait =
       ((⟨1, 1000, 0⟩ : pacer_config).waitfor, (⟨1, 1000, 0⟩ : pacer_config).maxnowait) ∧
     (∀ t now : Int,
       (⟨false, 0, 0, 0⟩ : pacer_state).sent_without_delay =
         (⟨1, 1000, 0⟩ : pacer_config).maxnowait →
       toInt32 (t - (now + (⟨false, 0, 0, 0⟩ : pacer_state).delta_start)) = 0 →
       (write_from_circular_step ⟨1, 1000, 0⟩ ⟨false, 0, 0, 0⟩ t false now).slept =
         (⟨1, 1000, 0⟩ : pacer_config).waitfor ∧
       (write_from_circular_step ⟨1, 1000, 0⟩ ⟨false, 0, 0, 0⟩ t false now).state.sent_without_delay
         = 0)) :=
  ⟨by decide, by decide, rfl, by decide, by decide, by decide,
    burst_cap_window ⟨1, 1000, 0⟩ ⟨false, 0, 0, 0⟩ [(0, false, 0), (0, false, 0)]
      (by decide) (by decide) rfl (by decide) (by decide) (by decide)⟩

theorem emod_add_congr (a b t n : Int) (h : a % n = b % n) :
    (a + t) % n = (b + t) % n := by
  rw [Int.add_emod, h, ← Int.add_emod]

theorem emod_sub_congr (t a b n : Int) (h : a % n = b % n) :
    (t - a) % n = (t - b) % n := by
  rw [Int.sub_emod, h, ← Int.sub_emod]

theorem neg_one_emod (n : Int) (hn : 0 < n) : (-1) % n = n - 1 := by
  have h := Int.add_mul_emod_self_left (a := (-1 : Int)) (b := n) (c := 1)
  rw [mul_one] at h
  rw [← h, show (-1 : Int) + n = n - 1 by ring,
    Int.emod_eq_of_lt (by omega) (by omega)]

theorem emod_eq_size_sub_one_iff (x n : Int) (hn : 0 < n) :
    x % n = n - 1 ↔ (x + 1) % n = 0 := by
  constructor
  · intro h
    have h2 : (x + 1) % n = (x % n + 1) % n := by
      conv_lhs => rw [← Int.emod_add_ediv x n]
      rw [show x % n + n * (x / n) + 1 = x % n + 1 + n * (x / n) by ring,
        Int.add_mul_emod_self_left]
    rw [h2, h, show n - 1 + 1 = n by ring, Int.emod_self]
  · intro h
    obtain ⟨k, hk⟩ := Int.dvd_of_emod_eq_zero h
    have hx : x = -1 + n * k := by linarith
    rw [hx, Int.add_mul_emod_self_left, neg_one_emod n hn]

/-- From divisibility of the index difference to the `Nat`-level modular
equation used by the source predicates. -/
theorem mod_eq_start_of_dvd (a : Nat) (c : circular_buffer)
    (hs : c.start < c.size)
    (hdvd : (c.size : Int) ∣ ((a : Int) - c.start)) : a % c.size = c.start := by
  obtain ⟨k, hk⟩ := hdvd
  have ha : (a : Int) = c.start + c.size * k := by linarith
  have h2 : (a : Int) % c.size = c.start := by
    rw [ha, Int.add_mul_emod_self_left,
      Int.emod_eq_of_lt (by exact_mod_cast c.start.zero_le) (by exact_mod_cast hs)]
  have h3 : ((a % c.size : Nat) : Int) = (c.start : Int) := by
    push_cast
    exact h2
  exact_mod_cast h3

theorem dvd_of_mod_eq_start (a : Nat) (c : circular_buffer)
    (h : a % c.size = c.start) :
    (c.size : Int) ∣ ((a : Int) - c.start) := by
  have h1 : (a : Int) % c.size = c.start := by
    have := congrArg (fun x : Nat => (x : Int)) h
    push_cast at this
    exact this
  have h2 : (a : Int) - c.start = c.size * ((a : Int) / c.size) := by
    have := Int.emod_add_ediv (a : Int) (c.size : Int)
    omega
  exact ⟨_, h2⟩

/-- The empty predicate holds exactly when the ring holds 0 items. -/
theorem circular_buffer_empty_iff_count (c : circular_buffer)
    (h0 : 0 < c.size) (hs : c.start < c.size) :
    circular_buffer_empty c = true ↔ ring_count c = 0 := by
  unfold circular_buffer_empty ring_count
  rw [beq_iff_eq]
  constructor
  · intro h
    apply Int.emod_eq_zero_of_dvd
    have := dvd_of_mod_eq_start (c.end_ + 1) c h.symm
    have hcast : ((c.end_ + 1 : Nat) : Int) = (c.end_ : Int) + 1 := by push_cast; ring
    rw [hcast] at this
    exact this
  · intro h
    have hdvd : (c.size : Int) ∣ ((c.end_ : Int) + 1 - c.start) :=
      Int.dvd_of_emod_eq_zero h
    have := mod_eq_start_of_dvd (c.end_ + 1) c hs
      (by push_cast; exact_mod_cast hdvd)
    exact this.symm

/-- The full predicate holds exactly when the ring holds `size - 1` items. -/
theorem circular_buffer_full_iff_count (c : circular_buffer)
    (h0 : 0 < c.size) (hs : c.start < c.size) :
    circular_buffer_full c = true ↔ ring_count c = (c.size : Int) - 1 := by
  unfold circular_buffer_full ring_count
  rw [beq_iff_eq]
  have hn : (0 : Int) < (c.size : Int) := by exact_mod_cast h0
  rw [emod_eq_size_sub_one_iff _ _ hn]
  have hkey : (c.end_ : Int) + 1 - c.start + 1 = ((c.end_ + 2 : Nat) : Int) - c.start := by
    push_cast; ring
  rw [hkey]
  constructor
  · intro h
    exact Int.emod_eq_zero_of_dvd (dvd_of_mod_eq_start (c.end_ + 2) c h)
  · intro h
    exact mod_eq_start_of_dvd (c.end_ + 2) c hs (Int.dvd_of_emod_eq_zero h)

/-- The ghost count after a producer commit. -/
theorem ring_count_put (c : circular_buffer) (h0 : 0 < c.size)
    (hs : c.start < c.size) (hnf : circular_buffer_full c = false) :
    ring_count { c with end_ := (c.end_ + 1) % c.size } = ring_count c + 1 := by
  have hn : (0 : Int) < (c.size : Int) := by exact_mod_cast h0
  have hrange1 : 0 ≤ ring_count c := Int.emod_nonneg _ (by omega)
  have hrange2 : ring_count c < (c.size : Int) := Int.emod_lt_of_pos _ hn
  have hne : ring_count c ≠ (c.size : Int) - 1 := by
    intro h
    rw [← circular_buffer_full_iff_count c h0 hs] at h
    rw [h] at hnf
    exact absurd hnf (by simp)
  unfold ring_count at *
  dsimp only
  have hcast : (((c.end_ + 1) % c.size : Nat) : Int) = ((c.end_ : Int) + 1) % c.size := by
    push_cast; ring_nf
  rw [hcast]
  have e1 : ((c.end_ : Int) + 1) % c.size + 1 - c.start =
      ((c.end_ : Int) + 1) % c.size + (1 - c.start) := by ring
  have e2 : (c.end_ : Int) + 1 + (1 - c.start) = (c.end_ : Int) + 1 + 1 - c.start := by ring
  rw [e1, emod_add_congr _ ((c.end_ : Int) + 1) _ _
    (Int.emod_emod_of_dvd _ dvd_rfl), e2]
  have e3 : (c.end_ : Int) + 1 + 1 - c.start = ((c.end_ : Int) + 1 - c.start) + 1 := by ring
  rw [e3, emod_add_congr _ (((c.end_ : Int) + 1 - c.start) % c.size) _ _
    (by rw [Int.emod_emod_of_dvd _ dvd_rfl])]
  exact Int.emod_eq_of_lt (by omega) (by omega)

/-- The ghost count after a consumer release. -/
theorem ring_count_get (c : circular_buffer) (h0 : 0 < c.size)
    (hs : c.start < c.size) (hne : circular_buffer_empty c = false) :
    ring_count { c with start := (c.start + 1) % c.size } = ring_count c - 1 := by
  have hn : (0 : Int) < (c.size : Int) := by exact_mod_cast h0
  have hrange1 : 0 ≤ ring_count c := Int.emod_nonneg _ (by omega)
  have hrange2 : ring_count c < (c.size : Int) := Int.emod_lt_of_pos _ hn
  have hne0 : ring_count c ≠ 0 := by
    intro h
    rw [← circular_buffer_empty_iff_count c h0 hs] at h
    rw [h] at hne
    exact absurd hne (by simp)
  unfold ring_count at *
  dsimp only
  have hcast : (((c.start + 1) % c.size : Nat) : Int) = ((c.start : Int) + 1) % c.size := by
    push_cast; ring_nf
  rw [hcast]
  rw [emod_sub_congr _ _ ((c.start : Int) + 1) _ (Int.emod_emod_of_dvd _ dvd_rfl)]
  have e1 : (c.end_ : Int) + 1 - ((c.start : Int) + 1) =
      ((c.end_ : Int) + 1 - c.start) + (-1) := by ring
  rw [e1, emod_add_congr _ (((c.end_ : Int) + 1 - c.start) % c.size) _ _
    (by rw [Int.emod_emod_of_dvd _ dvd_rfl])]
  exact Int.emod_eq_of_lt (by omega) (by omega)

/-- One protocol step preserves the ring invariant. -/
theorem ring_inv_preserved {sz : Nat} {s s' : circular_buffer × Int}
    (h0 : 0 < sz) (hinv : ring_inv sz s) (hstep : ring_step s s') :
    ring_inv sz s' := by
  obtain ⟨hsz, hs, he, hc⟩ := hinv
  cases hstep with
  | put c n hnf =>
    dsimp only at hsz hs he hc ⊢
    have hlt : (c.end_ + 1) % c.size < c.size := Nat.mod_lt _ (by omega)
    exact ⟨hsz, hs, by show (c.end_ + 1) % c.size < sz; omega,
      by rw [ring_count_put c (by omega) (by omega) hnf, hc]⟩
  | get c n hne =>
    dsimp only at hsz hs he hc ⊢
    have hlt : (c.start + 1) % c.size < c.size := Nat.mod_lt _ (by omega)
    exact ⟨hsz, by show (c.start + 1) % c.size < sz; omega, he,
      by rw [ring_count_get c (by omega) (by omega) hne, hc]⟩

/-- Every reachable state of a ring of at least 2 slots satisfies the
invariant. -/
theorem ring_reachable_inv (sz : Nat) (h2 : 2 ≤ sz) (s : circular_buffer × Int)
    (h : ring_reachable sz s) : ring_inv sz s := by
  induction h with
  | refl =>
    refine ⟨rfl, by show 1 < sz; omega, by show 0 < sz; omega, ?_⟩
    show (0 : Int) = ring_count ⟨sz, 1, 0⟩
    simp [ring_count]
  | tail _ hstep ih => exact ring_inv_preserved (by omega) ih hstep

/-- C4 (amended: for every permitted `circ_buf_size ≥ 2`; the permitted
size 1 violates the property, see the counterexample): the empty
predicate holds iff `start = (end + 1) % size`, the full predicate holds
iff `(end + 2) % size = start`, no reachable state satisfies both, and
the ring never holds more than `size - 1` items. -/
theorem circular_buffer_invariants (sz : Nat) (s : circular_buffer × Int)
    (h2 : 2 ≤ sz) (hr : ring_reachable sz s) :
    (circular_buffer_empty s.1 = true ↔ s.1.start = (s.1.end_ + 1) % s.1.size) ∧
    (circular_buffer_full s.1 = true ↔ (s.1.end_ + 2) % s.1.size = s.1.start) ∧
    ¬(circular_buffer_empty s.1 = true ∧ circular_buffer_full s.1 = true) ∧
    0 ≤ s.2 ∧ s.2 ≤ (sz : Int) - 1 := by
  obtain ⟨hsz, hs, he, hc⟩ := ring_reachable_inv sz h2 s hr
  have h0 : 0 < s.1.size := by omega
  have hs' : s.1.start < s.1.size := by omega
  have hn : (0 : Int) < (s.1.size : Int) := by exact_mod_cast h0
  have hrange1 : 0 ≤ ring_count s.1 := Int.emod_nonneg _ (by omega)
  have hrange2 : ring_count s.1 < (s.1.size : Int) := Int.emod_lt_of_pos _ hn
  refine ⟨?_, ?_, ?_, ?_, ?_⟩
  · unfold circular_buffer_empty
    exact beq_iff_eq
  · unfold circular_buffer_full
    exact beq_iff_eq
  · rintro ⟨hemp, hful⟩
    rw [circular_buffer_empty_iff_count s.1 h0 hs'] at hemp
    rw [circular_buffer_full_iff_count s.1 h0 hs'] at hful
    rw [hemp] at hful
    have : (s.1.size : Int) = 1 := by omega
    have : s.1.size = 1 := by exact_mod_cast this
    omega
  · omega
  · have : (s.1.size : Int) = (sz : Int) := by exact_mod_cast hsz
    omega

/-- Witness for `circular_buffer_invariants` at the freshly mapped ring of
size 3. -/
theorem circular_buffer_invariants_witness :
    2 ≤ 3 ∧ ring_reachable 3 (ring_init 3) ∧
    ((circular_buffer_empty (ring_init 3).1 = true ↔
        (ring_init 3).1.start = ((ring_init 3).1.end_ + 1) % (ring_init 3).1.size) ∧
     (circular_buffer_full (ring_init 3).1 = true ↔
        ((ring_init 3).1.end_ + 2) % (ring_init 3).1.size = (ring_init 3).1.start) ∧
     ¬(circular_buffer_empty (ring_init 3).1 = true ∧
        circular_buffer_full (ring_init 3).1 = true) ∧
     0 ≤ (ring_init 3).2 ∧ (ring_init 3).2 ≤ (3 : Int) - 1) :=
  ⟨by omega, Relation.ReflTransGen.refl,
    circular_buffer_invariants 3 (ring_init 3) (by omega) Relation.ReflTransGen.refl⟩

/-- C4 counterexample: `circ_buf_size = 1` is permitted by the option
validation, yet after one commit and one release the reachable state
`start = 0, end = 0` satisfies both the empty and the full predicate, and
after the commit the ring holds 1 item, exceeding its capacity
`size - 1 = 0`. -/
theorem circular_buffer_size_one_counterexample :
    circ_buf_size_permitted 1 = true ∧
    ring_reachable 1 (⟨1, 0, 0⟩, 0) ∧
    circular_buffer_empty ⟨1, 0, 0⟩ = true ∧
    circular_buffer_full ⟨1, 0, 0⟩ = true ∧
    ring_reachable 1 (⟨1, 1, 0⟩, 1) ∧
    (1 : Int) - 1 < 1 := by
  have st1 : ring_step (ring_init 1) (⟨1, 1, 0⟩, 1) :=
    ring_step.put ⟨1, 1, 0⟩ 0 (by decide)
  have st2 : ring_step (⟨1, 1, 0⟩, 1) (⟨1, 0, 0⟩, 0) :=
    ring_step.get ⟨1, 1, 0⟩ 1 (by decide)
  refine ⟨by decide, ?_, by decide, by decide, ?_, by norm_num⟩
  · exact Relation.ReflTransGen.tail (Relation.ReflTransGen.single st1) st2
  · exact Relation.ReflTransGen.single st1

/-- The effective rate used for priming is positive whenever the
configured byte rate is at least 1 (the default is 250000). -/
theorem effective_pcr_rate_pos (w : buffered_TS_output) (s : rate_state)
    (hrate : 1 ≤ w.rate) : 0 < effective_pcr_rate w s := by
  unfold effective_pcr_rate
  split_ifs with h
  · have : (0 : ℚ) < (w.rate : ℚ) := by exact_mod_cast (by omega : (0 : Int) < w.rate)
    exact this
  · linarith [not_lt.mp h]

theorem prime_bytes_pos (w : buffered_TS_output)
    (hk : 1 ≤ w.TS_in_item) (hps : 1 ≤ w.prime_size) : 0 < prime_bytes w := by
  unfold prime_bytes TS_PACKET_SIZE
  have h1 : (0 : Int) < 188 := by norm_num
  exact mul_pos (mul_pos h1 (by omega)) (by omega)

theorem prime_time_pos (w : buffered_TS_output) (rate0 : ℚ)
    (hk : 1 ≤ w.TS_in_item) (hps : 1 ≤ w.prime_size)
    (hsp : 1 ≤ w.prime_speedup) (hr0 : 0 < rate0) : 0 < prime_time w rate0 := by
  unfold prime_time
  apply div_pos
  · have h1 : (0 : ℚ) < (prime_bytes w : ℚ) := by
      exact_mod_cast prime_bytes_pos w hk hps
    positivity
  · have h2 : (0 : ℚ) < (w.prime_speedup : ℚ) := by
      exact_mod_cast (by omega : (0 : Int) < w.prime_speedup)
    positivity

theorem primed_pool_fst_pos (w : buffered_TS_output) (s : rate_state)
    (hk : 1 ≤ w.TS_in_item) (hps : 1 ≤ w.prime_size) : 0 < (primed_pool w s).1 := by
  unfold primed_pool
  split_ifs with h
  · exact prime_bytes_pos w hk hps
  · push_neg at h
    exact h.1

theorem primed_pool_snd_pos (w : buffered_TS_output) (s : rate_state)
    (hrate : 1 ≤ w.rate) (hk : 1 ≤ w.TS_in_item) (hps : 1 ≤ w.prime_size)
    (hsp : 1 ≤ w.prime_speedup) : 0 < (primed_pool w s).2 := by
  unfold primed_pool
  split_ifs with h
  · exact prime_time_pos w _ hk hps hsp (effective_pcr_rate_pos w s hrate)
  · push_neg at h
    exact h.2

/-- The per-item deduction `num_microseconds` is never negative (the pool
is re-primed to positive values before it is used). -/
theorem item_microseconds_nonneg (w : buffered_TS_output)
    (packets : List packet_data) (s : rate_state)
    (hrate : 1 ≤ w.rate) (hk : 1 ≤ w.TS_in_item) (hps : 1 ≤ w.prime_size)
    (hsp : 1 ≤ w.prime_speedup) : 0 ≤ item_microseconds w packets s := by
  unfold item_microseconds
  apply mul_nonneg
  · apply div_nonneg
    · unfold item_bytes TS_PACKET_SIZE
      positivity
    · have := primed_pool_fst_pos w s hk hps
      have h2 : (0 : ℚ) ≤ ((primed_pool w s).1 : ℚ) := by exact_mod_cast this.le
      exact h2
  · exact (primed_pool_snd_pos w s hrate hk hps hsp).le

/-- Every branch of `set_buffer_item_time_pcr` stores the same timestamp. -/
theorem set_buffer_item_time_pcr_last_timestamp (w : buffered_TS_output)
    (packets : List packet_data) (s : rate_state) :
    (set_buffer_item_time_pcr w packets s).last_timestamp =
      item_timestamp w packets s := by
  unfold set_buffer_item_time_pcr
  cases h : first_pcr packets with
  | none => rfl
  | some p =>
    dsimp only
    split_ifs <;> rfl

theorem plain_elapsed_raw_nonneg (rate : Int) (n : Nat) (hr : 1 ≤ rate) :
    0 ≤ plain_elapsed_raw rate n := by
  unfold plain_elapsed_raw
  rw [Int.le_floor]
  push_cast
  apply div_nonneg
  · unfold TS_PACKET_SIZE
    positivity
  · exact_mod_cast (by omega : (0 : Int) ≤ rate)

/-- A single plain-mode stamp that does not wrap is the previous stamp
plus the non-negative elapsed time. -/
theorem set_buffer_item_time_plain_no_wrap (rate : Int) (n : Nat) (t : Int)
    (hr : 1 ≤ rate) (ht : 0 ≤ t) (hnw : t + plain_elapsed_raw rate n < U32) :
    plain_elapsed rate n = plain_elapsed_raw rate n ∧
    set_buffer_item_time_plain rate n t = t + plain_elapsed_raw rate n ∧
    t ≤ set_buffer_item_time_plain rate n t := by
  have h0 := plain_elapsed_raw_nonneg rate n hr
  have hU : U32 = 4294967296 := rfl
  have he : plain_elapsed rate n = plain_elapsed_raw rate n := by
    show plain_elapsed_raw rate n % U32 = plain_elapsed_raw rate n
    exact Int.emod_eq_of_lt h0 (by omega)
  have hs : set_buffer_item_time_plain rate n t = t + plain_elapsed_raw rate n := by
    show (t + plain_elapsed rate n) % U32 = _
    rw [he]
    exact Int.emod_eq_of_lt (by omega) (by omega)
  exact ⟨he, hs, by omega⟩

/-- Plain-mode stamping over a whole run: while the accumulated time stays
below 2^32 µs, the committed times are non-decreasing. -/
theorem plain_times_monotone (rate : Int) (hr : 1 ≤ rate) :
    ∀ (ns : List Nat) (t0 : Int), 0 ≤ t0 →
    t0 + (ns.map (plain_elapsed_raw rate)).sum < U32 →
    List.Chain' (· ≤ ·) (t0 :: plain_times rate ns t0) := by
  intro ns
  induction ns with
  | nil =>
    intro t0 _ _
    simp [plain_times]
  | cons n rest ih =>
    intro t0 ht0 hnw
    have hraw0 := plain_elapsed_raw_nonneg rate n hr
    have hsum : 0 ≤ (rest.map (plain_elapsed_raw rate)).sum := by
      apply List.sum_nonneg
      intro x hx
      obtain ⟨m, _, rfl⟩ := List.mem_map.mp hx
      exact plain_elapsed_raw_nonneg rate m hr
    simp only [List.map_cons, List.sum_cons] at hnw
    obtain ⟨-, hs, hle⟩ :=
      set_buffer_item_time_plain_no_wrap rate n t0 hr ht0 (by omega)
    show List.Chain' (· ≤ ·)
      (t0 :: set_buffer_item_time_plain rate n t0 :: plain_times rate rest _)
    rw [List.chain'_cons]
    refine ⟨hle, ?_⟩
    have := ih (set_buffer_item_time_plain rate n t0) (by omega) (by omega)
    exact this

/-- A single PCR-mode stamp that does not wrap never moves backwards. -/
theorem item_timestamp_mono (w : buffered_TS_output)
    (packets : List packet_data) (s : rate_state)
    (hrate : 1 ≤ w.rate) (hk : 1 ≤ w.TS_in_item) (hps : 1 ≤ w.prime_size)
    (hsp : 1 ≤ w.prime_speedup) (ht : 0 ≤ s.last_timestamp)
    (hnw : Int.floor ((s.last_timestamp : ℚ) + item_microseconds w packets s) < U32) :
    s.last_timestamp ≤ item_timestamp w packets s := by
  have hmu := item_microseconds_nonneg w packets s hrate hk hps hsp
  have h1 : s.last_timestamp ≤
      Int.floor ((s.last_timestamp : ℚ) + item_microseconds w packets s) := by
    calc s.last_timestamp = Int.floor ((s.last_timestamp : ℚ)) := by
          rw [Int.floor_intCast]
    _ ≤ _ := Int.floor_le_floor (by linarith)
  unfold item_timestamp
  rw [Int.emod_eq_of_lt (by omega) hnw]
  exact h1

/-- C6 (amended: `time_us` advances by a non-negative increment reduced
modulo 2^32, so it is non-decreasing exactly while the accumulated value
stays below 2^32 µs; unbounded runs wrap, see the counterexample): in
plain-rate mode a whole run without wraparound has non-decreasing
committed times, and in PCR mode a step without wraparound never
decreases the stored timestamp. -/
theorem time_us_monotone (rate : Int) (ns : List Nat) (t0 : Int)
    (w : buffered_TS_output) (packets : List packet_data) (s : rate_state)
    (hr : 1 ≤ rate) (ht0 : 0 ≤ t0)
    (hnw : t0 + (ns.map (plain_elapsed_raw rate)).sum < U32)
    (hrate : 1 ≤ w.rate) (hk : 1 ≤ w.TS_in_item) (hps : 1 ≤ w.prime_size)
    (hsp : 1 ≤ w.prime_speedup) (ht : 0 ≤ s.last_timestamp)
    (hnw2 : Int.floor ((s.last_timestamp : ℚ) + item_microseconds w packets s) < U32) :
    List.Chain' (· ≤ ·) (t0 :: plain_times rate ns t0) ∧
    s.last_timestamp ≤ (set_buffer_item_time_pcr w packets s).last_timestamp := by
  refine ⟨plain_times_monotone rate hr ns t0 ht0 hnw, ?_⟩
  rw [set_buffer_item_time_pcr_last_timestamp]
  exact item_timestamp_mono w packets s hrate hk hps hsp ht hnw2

/-- Witness for `time_us_monotone`: one plain item at 1000 B/s and one
PCR-mode stamp from the initial controller state. -/
theorem time_us_monotone_witness :
    ((1 : Int) ≤ 1000) ∧ ((0 : Int) ≤ 0) ∧
    ((0 : Int) + (([7] : List Nat).map (plain_elapsed_raw 1000)).sum < U32) ∧
    ((1 : Int) ≤ (⟨250000, 10, 100, 7⟩ : buffered_TS_output).rate) ∧
    ((1 : Int) ≤ (⟨250000, 10, 100, 7⟩ : buffered_TS_output).TS_in_item) ∧
    ((1 : Int) ≤ (⟨250000, 10, 100, 7⟩ : buffered_TS_output).prime_size) ∧
    ((1 : Int) ≤ (⟨250000, 10, 100, 7⟩ : buffered_TS_output).prime_speedup) ∧
    ((0 : Int) ≤ (⟨0, 0, -1, 0, 0, 0, 0, false, false, 0, 0⟩ : rate_state).last_timestamp) ∧
    (Int.floor (((⟨0, 0, -1, 0, 0, 0, 0, false, false, 0, 0⟩ : rate_state).last_timestamp : ℚ) +
        item_microseconds ⟨250000, 10, 100, 7⟩ []
          ⟨0, 0, -1, 0, 0, 0, 0, false, false, 0, 0⟩) < U32) ∧
    (List.Chain' (· ≤ ·) ((0 : Int) :: plain_times 1000 [7] 0) ∧
     (⟨0, 0, -1, 0, 0, 0, 0, false, false, 0, 0⟩ : rate_state).last_timestamp ≤
       (set_buffer_item_time_pcr ⟨250000, 10, 100, 7⟩ []
         ⟨0, 0, -1, 0, 0, 0, 0, false, false, 0, 0⟩).last_timestamp) :=
  ⟨by norm_num, by norm_num,
   by norm_num [plain_elapsed_raw, TS_PACKET_SIZE, U32],
   by norm_num, by norm_num, by norm_num,
   by norm_num, by norm_num,
   by norm_num [item_microseconds, item_bytes, primed_pool, prime_bytes, prime_time,
     effective_pcr_rate, TS_PACKET_SIZE, U32],
   time_us_monotone 1000 [7] 0 ⟨250000, 10, 100, 7⟩ []
     ⟨0, 0, -1, 0, 0, 0, 0, false, false, 0, 0⟩
     (by norm_num) (by norm_num)
     (by norm_num [plain_elapsed_raw, TS_PACKET_SIZE, U32])
     (by norm_num) (by norm_num)
     (by norm_num) (by norm_num) (by norm_num)
     (by norm_num [item_microseconds, item_bytes, primed_pool, prime_bytes, prime_time,
       effective_pcr_rate, TS_PACKET_SIZE, U32])⟩

/-- C6 counterexample: `time_us` is a `uint32_t` µs counter, so an
arbitrarily long run wraps.  In plain mode at 1 byte/second, four 7-packet
items produce times 1316000000, 2632000000, 3948000000 and then
5264000000 mod 2^32 = 969032704 — the fourth committed time is smaller
than the third, violating monotonicity for arbitrarily long runs. -/
theorem time_us_wrap_counterexample :
    plain_times 1 [7, 7, 7, 7] 0 =
      [1316000000, 2632000000, 3948000000, 969032704] ∧
    ¬ List.Chain' (· ≤ ·) (plain_times 1 [7, 7, 7, 7] 0) := by
  have h : plain_times 1 [7, 7, 7, 7] 0 =
      [1316000000, 2632000000, 3948000000, 969032704] := by
    norm_num [plain_times, set_buffer_item_time_plain, plain_elapsed,
      TS_PACKET_SIZE, U32]
  refine ⟨h, ?_⟩
  rw [h]
  intro hch
  rw [List.chain'_cons, List.chain'_cons, List.chain'_cons] at hch
  obtain ⟨h1, h2, h3, -⟩ := hch
  omega

/-- C7: a PCR smaller than `last_pcr` is treated as a discontinuity:
`had_first_pcr` and `had_second_pcr` are cleared and the credit pool is
zeroed, so the next closed item re-primes the pool from scratch; moreover
the per-item time increment is never negative. -/
theorem set_buffer_item_time_pcr_discontinuity
    (w : buffered_TS_output) (packets : List packet_data) (s : rate_state)
    (p : packet_data)
    (hrate : 1 ≤ w.rate) (hk : 1 ≤ w.TS_in_item) (hps : 1 ≤ w.prime_size)
    (hsp : 1 ≤ w.prime_speedup)
    (hp : first_pcr packets = some p) (hlt : p.pcr < s.last_pcr) :
    ((set_buffer_item_time_pcr w packets s).had_first_pcr = false ∧
     (set_buffer_item_time_pcr w packets s).had_second_pcr = false ∧
     (set_buffer_item_time_pcr w packets s).available_bytes = 0 ∧
     (set_buffer_item_time_pcr w packets s).available_time = 0) ∧
    primed_pool w (set_buffer_item_time_pcr w packets s) =
      (prime_bytes w,
       prime_time w (effective_pcr_rate w (set_buffer_item_time_pcr w packets s))) ∧
    (∀ (q : List packet_data) (s2 : rate_state), 0 ≤ item_microseconds w q s2) ∧
    (∀ (q : List packet_data) (s2 : rate_state),
      s2.last_timestamp ≤
        Int.floor ((s2.last_timestamp : ℚ) + item_microseconds w q s2)) := by
  have hfields : (set_buffer_item_time_pcr w packets s).had_first_pcr = false ∧
      (set_buffer_item_time_pcr w packets s).had_second_pcr = false ∧
      (set_buffer_item_time_pcr w packets s).available_bytes = 0 ∧
      (set_buffer_item_time_pcr w packets s).available_time = 0 := by
    simp only [set_buffer_item_time_pcr, hp]
    rw [if_pos hlt]
    exact ⟨rfl, rfl, rfl, rfl⟩
  refine ⟨hfields, ?_, ?_, ?_⟩
  · unfold primed_pool
    rw [if_pos (Or.inl (by rw [hfields.2.2.1]))]
  · intro q s2
    exact item_microseconds_nonneg w q s2 hrate hk hps hsp
  · intro q s2
    have hmu := item_microseconds_nonneg w q s2 hrate hk hps hsp
    calc s2.last_timestamp = Int.floor ((s2.last_timestamp : ℚ)) := by
          rw [Int.floor_intCast]
    _ ≤ _ := Int.floor_le_floor (by linarith)

/-- Witness for `set_buffer_item_time_pcr_discontinuity`: a PCR of 50
arriving while `last_pcr = 100`. -/
theorem set_buffer_item_time_pcr_discontinuity_witness :
    ((1 : Int) ≤ (⟨250000, 10, 100, 7⟩ : buffered_TS_output).rate) ∧
    ((1 : Int) ≤ (⟨250000, 10, 100, 7⟩ : buffered_TS_output).TS_in_item) ∧
    ((1 : Int) ≤ (⟨250000, 10, 100, 7⟩ : buffered_TS_output).prime_size) ∧
    ((1 : Int) ≤ (⟨250000, 10, 100, 7⟩ : buffered_TS_output).prime_speedup) ∧
    first_pcr [⟨5, 0, true, 50⟩] = some ⟨5, 0, true, 50⟩ ∧
    ((⟨5, 0, true, 50⟩ : packet_data).pcr <
      (⟨1000, 2000, 2, 100, 250000, 0, 0, true, true, 0, 0⟩ : rate_state).last_pcr) ∧
    (((set_buffer_item_time_pcr ⟨250000, 10, 100, 7⟩ [⟨5, 0, true, 50⟩]
        ⟨1000, 2000, 2, 100, 250000, 0, 0, true, true, 0, 0⟩).had_first_pcr = false ∧
      (set_buffer_item_time_pcr ⟨250000, 10, 100, 7⟩ [⟨5, 0, true, 50⟩]
        ⟨1000, 2000, 2, 100, 250000, 0, 0, true, true, 0, 0⟩).had_second_pcr = false ∧
      (set_buffer_item_time_pcr ⟨250000, 10, 100, 7⟩ [⟨5, 0, true, 50⟩]
        ⟨1000, 2000, 2, 100, 250000, 0, 0, true, true, 0, 0⟩).available_bytes = 0 ∧
      (set_buffer_item_time_pcr ⟨250000, 10, 100, 7⟩ [⟨5, 0, true, 50⟩]
        ⟨1000, 2000, 2, 100, 250000, 0, 0, true, true, 0, 0⟩).available_time = 0) ∧
     primed_pool ⟨250000, 10, 100, 7⟩
        (set_buffer_item_time_pcr ⟨250000, 10, 100, 7⟩ [⟨5, 0, true, 50⟩]
          ⟨1000, 2000, 2, 100, 250000, 0, 0, true, true, 0, 0⟩) =
        (prime_bytes ⟨250000, 10, 100, 7⟩,
         prime_time ⟨250000, 10, 100, 7⟩
           (effective_pcr_rate ⟨250000, 10, 100, 7⟩
             (set_buffer_item_time_pcr ⟨250000, 10, 100, 7⟩ [⟨5, 0, true, 50⟩]
               ⟨1000, 2000, 2, 100, 250000, 0, 0, true, true, 0, 0⟩))) ∧
     (∀ (q : List packet_data) (s2 : rate_state),
        0 ≤ item_microseconds ⟨250000, 10, 100, 7⟩ q s2) ∧
     (∀ (q : List packet_data) (s2 : rate_state),
        s2.last_timestamp ≤
          Int.floor ((s2.last_timestamp : ℚ) +
            item_microseconds ⟨250000, 10, 100, 7⟩ q s2))) :=
  ⟨by norm_num, by norm_num, by norm_num, by norm_num, by decide, by decide,
   set_buffer_item_time_pcr_discontinuity ⟨250000, 10, 100, 7⟩ [⟨5, 0, true, 50⟩]
     ⟨1000, 2000, 2, 100, 250000, 0, 0, true, true, 0, 0⟩ ⟨5, 0, true, 50⟩
     (by norm_num) (by norm_num) (by norm_num) (by norm_num) (by decide) (by decide)⟩

/-- The source rate formula `(delta_bytes * 27.0 / delta_pcr) * 1000000`
equals `delta_bytes * 27e6 / delta_pcr`. -/
theorem pcr_rate_update_eq (db dp : Int) :
    pcr_rate_update db dp = (db : ℚ) * 27000000 / (dp : ℚ) := by
  unfold pcr_rate_update
  rw [div_mul_eq_mul_div, mul_assoc]
  norm_num

/-- C1 counterexample: for the call with `Δbytes = 188` and
`Δpcr = 27000000` (one packet, one second of PCR ticks), the computed
rate is 188 B/s, while the claim's formula
`Δbytes × 27e6 / Δpcr × 1e6` evaluates to 188000000 — the claimed
formula carries a spurious ×1e6 factor. -/
theorem pcr_rate_formula_counterexample :
    (set_buffer_item_time_pcr ⟨250000, 10, 100, 7⟩ [⟨1, 0, true, 27000000⟩]
        ⟨1000000, 4000000, 0, 0, 250000, 0, 0, true, true, 0, 0⟩).pcr_rate = 188 ∧
    (188 : ℚ) * 27000000 / 27000000 * 1000000 = 188000000 ∧
    (188 : ℚ) ≠ 188000000 := by
  refine ⟨?_, by norm_num, by norm_num⟩
  norm_num [set_buffer_item_time_pcr, first_pcr, List.find?, pcr_rate_update,
    primed_pool, primed_initials, prime_bytes, prime_time, effective_pcr_rate,
    item_bytes, item_microseconds, item_timestamp, TS_PACKET_SIZE, U32]

/-- C1 (amended: the rate formula is
`pcr_rate_bps = Δbytes × 27e6 / Δpcr`, without the claim's trailing
×1e6): on a call whose item carries a PCR, when a first PCR was already
recorded and the new PCR is not smaller, the rate becomes
`Δbytes × 27e6 / Δpcr` with `Δpcr = pcr - last_pcr` and
`Δbytes = (index - last_pcr_index) × 188`; the pool (after the normal
per-item deduction) gains `Δbytes` bytes and `Δbytes × 1e6 / pcr_rate_bps`
microseconds; and exactly when the second PCR has not yet been seen,
`available_time` additionally has `initial_prime_time` subtracted and
`initial_prime_bytes × 1e6 / pcr_rate_bps` added. -/
theorem set_buffer_item_time_pcr_rate_step
    (w : buffered_TS_output) (packets : List packet_data) (s : rate_state)
    (p : packet_data)
    (hp : first_pcr packets = some p) (hfirst : s.had_first_pcr = true)
    (hmono : s.last_pcr ≤ p.pcr) :
    (set_buffer_item_time_pcr w packets s).pcr_rate =
      (((p.index - s.last_pcr_index) * TS_PACKET_SIZE : Int) : ℚ) * 27000000 /
        ((p.pcr - s.last_pcr : Int) : ℚ) ∧
    (set_buffer_item_time_pcr w packets s).available_bytes =
      ((primed_pool w s).1 - item_bytes packets) +
        (p.index - s.last_pcr_index) * TS_PACKET_SIZE ∧
    (set_buffer_item_time_pcr w packets s).available_time =
      ((primed_pool w s).2 - item_microseconds w packets s) +
        (((p.index - s.last_pcr_index) * TS_PACKET_SIZE : Int) : ℚ) * 1000000 /
          (set_buffer_item_time_pcr w packets s).pcr_rate +
        (if s.had_second_pcr = false then
           - (primed_initials w s).1 +
             ((primed_initials w s).2 : ℚ) * 1000000 /
               (set_buffer_item_time_pcr w packets s).pcr_rate
         else 0) ∧
    (set_buffer_item_time_pcr w packets s).had_second_pcr = true := by
  have hnlt : ¬(p.pcr < s.last_pcr) := not_lt.mpr hmono
  have hnf : ¬¬(s.had_first_pcr = true) := not_not_intro hfirst
  have hrate : (set_buffer_item_time_pcr w packets s).pcr_rate =
      pcr_rate_update ((p.index - s.last_pcr_index) * TS_PACKET_SIZE)
        (p.pcr - s.last_pcr) := by
    simp only [set_buffer_item_time_pcr, hp]
    rw [if_neg hnlt, if_neg hnf]
  refine ⟨?_, ?_, ?_, ?_⟩
  · rw [hrate, pcr_rate_update_eq]
  · simp only [set_buffer_item_time_pcr, hp]
    rw [if_neg hnlt, if_neg hnf]
  · simp only [set_buffer_item_time_pcr, hp]
    rw [if_neg hnlt, if_neg hnf]
    cases hsec : s.had_second_pcr with
    | false =>
      simp only [hsec, Bool.false_eq_true, not_false_eq_true, if_true]
      ring
    | true =>
      simp only [hsec, Bool.true_eq_false, not_true_eq_false, if_false]
      ring
  · simp only [set_buffer_item_time_pcr, hp]
    rw [if_neg hnlt, if_neg hnf]

/-- Witness for `set_buffer_item_time_pcr_rate_step` at the same input as
the counterexample. -/
theorem set_buffer_item_time_pcr_rate_step_witness :
    first_pcr [⟨1, 0, true, 27000000⟩] = some ⟨1, 0, true, 27000000⟩ ∧
    ((⟨1000000, 4000000, 0, 0, 250000, 0, 0, true, true, 0, 0⟩ : rate_state).had_first_pcr
      = true) ∧
    ((⟨1000000, 4000000, 0, 0, 250000, 0, 0, true, true, 0, 0⟩ : rate_state).last_pcr ≤
      (⟨1, 0, true, 27000000⟩ : packet_data).pcr) ∧
    ((set_buffer_item_time_pcr ⟨250000, 10, 100, 7⟩ [⟨1, 0, true, 27000000⟩]
        ⟨1000000, 4000000, 0, 0, 250000, 0, 0, true, true, 0, 0⟩).pcr_rate =
      ((((⟨1, 0, true, 27000000⟩ : packet_data).index -
          (⟨1000000, 4000000, 0, 0, 250000, 0, 0, true, true, 0, 0⟩ : rate_state).last_pcr_index) *
          TS_PACKET_SIZE : Int) : ℚ) * 27000000 /
        ((((⟨1, 0, true, 27000000⟩ : packet_data).pcr -
          (⟨1000000, 4000000, 0, 0, 250000, 0, 0, true, true, 0, 0⟩ : rate_state).last_pcr : Int)) : ℚ) ∧
     (set_buffer_item_time_pcr ⟨250000, 10, 100, 7⟩ [⟨1, 0, true, 27000000⟩]
        ⟨1000000, 4000000, 0, 0, 250000, 0, 0, true, true, 0, 0⟩).available_bytes =
      ((primed_pool ⟨250000, 10, 100, 7⟩
          ⟨1000000, 4000000, 0, 0, 250000, 0, 0, true, true, 0, 0⟩).1 -
        item_bytes [⟨1, 0, true, 27000000⟩]) +
        ((⟨1, 0, true, 27000000⟩ : packet_data).index -
          (⟨1000000, 4000000, 0, 0, 250000, 0, 0, true, true, 0, 0⟩ : rate_state).last_pcr_index) *
          TS_PACKET_SIZE ∧
     (set_buffer_item_time_pcr ⟨250000, 10, 100, 7⟩ [⟨1, 0, true, 27000000⟩]
        ⟨1000000, 4000000, 0, 0, 250000, 0, 0, true, true, 0, 0⟩).available_time =
      ((primed_pool ⟨250000, 10, 100, 7⟩
          ⟨1000000, 4000000, 0, 0, 250000, 0, 0, true, true, 0, 0⟩).2 -
        item_microseconds ⟨250000, 10, 100, 7⟩ [⟨1, 0, true, 27000000⟩]
          ⟨1000000, 4000000, 0, 0, 250000, 0, 0, true, true, 0, 0⟩) +
        ((((⟨1, 0, true, 27000000⟩ : packet_data).index -
          (⟨1000000, 4000000, 0, 0, 250000, 0, 0, true, true, 0, 0⟩ : rate_state).last_pcr_index) *
          TS_PACKET_SIZE : Int) : ℚ) * 1000000 /
          (set_buffer_item_time_pcr ⟨250000, 10, 100, 7⟩ [⟨1, 0, true, 27000000⟩]
            ⟨1000000, 4000000, 0, 0, 250000, 0, 0, true, true, 0, 0⟩).pcr_rate +
        (if (⟨1000000, 4000000, 0, 0, 250000, 0, 0, true, true, 0, 0⟩ : rate_state).had_second_pcr
            = false then
           - (primed_initials ⟨250000, 10, 100, 7⟩
               ⟨1000000, 4000000, 0, 0, 250000, 0, 0, true, true, 0, 0⟩).1 +
             ((primed_initials ⟨250000, 10, 100, 7⟩
               ⟨1000000, 4000000, 0, 0, 250000, 0, 0, true, true, 0, 0⟩).2 : ℚ) * 1000000 /
               (set_buffer_item_time_pcr ⟨250000, 10, 100, 7⟩ [⟨1, 0, true, 27000000⟩]
                 ⟨1000000, 4000000, 0, 0, 250000, 0, 0, true, true, 0, 0⟩).pcr_rate
         else 0) ∧
     (set_buffer_item_time_pcr ⟨250000, 10, 100, 7⟩ [⟨1, 0, true, 27000000⟩]
        ⟨1000000, 4000000, 0, 0, 250000, 0, 0, true, true, 0, 0⟩).had_second_pcr = true) :=
  ⟨by decide, rfl, by decide,
   set_buffer_item_time_pcr_rate_step ⟨250000, 10, 100, 7⟩ [⟨1, 0, true, 27000000⟩]
     ⟨1000000, 4000000, 0, 0, 250000, 0, 0, true, true, 0, 0⟩ ⟨1, 0, true, 27000000⟩
     (by decide) rfl (by decide)⟩

/-- The child loop passes over a prefix of non-sentinel items, sending
each of them. -/
theorem tswrite_child_sends_append (pre rest : List circ_item)
    (h : ∀ i ∈ pre, is_EOF_item i = false) :
    tswrite_child_sends (pre ++ rest) =
      (tswrite_child_sends rest).map (pre ++ ·) := by
  induction pre with
  | nil =>
    simp only [List.nil_append]
    cases tswrite_child_sends rest <;> rfl
  | cons i pre ih =>
    have hi : is_EOF_item i = false := h i (List.mem_cons_self i pre)
    simp only [List.cons_append, tswrite_child_sends, hi, Bool.false_eq_true,
      if_false, List.append_eq]
    rw [ih (fun j hj => h j (List.mem_cons_of_mem _ hj))]
    cases tswrite_child_sends rest <;> rfl

/-- Without a sentinel the child loop never terminates (it would poll the
empty ring forever). -/
theorem tswrite_child_sends_no_eof (l : List circ_item)
    (h : ∀ i ∈ l, is_EOF_item i = false) : tswrite_child_sends l = none := by
  induction l with
  | nil => rfl
  | cons i rest ih =>
    have hi : is_EOF_item i = false := h i (List.mem_cons_self i rest)
    simp only [tswrite_child_sends, hi, Bool.false_eq_true, if_false]
    rw [ih (fun j hj => h j (List.mem_cons_of_mem _ hj))]
    rfl

/-- C5: `write_EOF` flushes the partially filled open item first, then
commits a sentinel of length 1 whose first payload byte is 0x01 with a
normally computed `time_us`; the child loop run on the committed sequence
terminates exactly at the sentinel, sends every item before it and never
the sentinel itself, and `received_EOF` releases the sentinel's slot by
advancing `start`. -/
theorem write_EOF_spec (w : buffered_TS_output) (packets : List packet_data)
    (data : List Int) (s : rate_state) (done : List circ_item)
    (c : circular_buffer)
    (hpk : packets ≠ [])
    (hdone : ∀ i ∈ done, is_EOF_item i = false) :
    (write_EOF_to_buffered_TS_output w true packets data s).1 =
      [(internal_flush w packets data s).1,
       (add_eof_entry w (internal_flush w packets data s).2).1] ∧
    (add_eof_entry w (internal_flush w packets data s).2).1.length = 1 ∧
    (add_eof_entry w (internal_flush w packets data s).2).1.data.headD 0 = 1 ∧
    is_EOF_item (add_eof_entry w (internal_flush w packets data s).2).1 = true ∧
    (add_eof_entry w (internal_flush w packets data s).2).1.time =
      (set_buffer_item_time_pcr w [] (internal_flush w packets data s).2).last_timestamp ∧
    tswrite_child_sends
        (done ++ (write_EOF_to_buffered_TS_output w true packets data s).1) =
      some (done ++ [(internal_flush w packets data s).1]) ∧
    tswrite_child_sends done = none ∧
    (received_EOF c (add_eof_entry w (internal_flush w packets data s).2).1).1 = true ∧
    (received_EOF c (add_eof_entry w (internal_flush w packets data s).2).1).2.start =
      (c.start + 1) % c.size := by
  have hlen1 : 1 ≤ packets.length := List.length_pos.mpr hpk
  have hlen : (0 : Int) < TS_PACKET_SIZE * packets.length := by
    have h1 : (1 : Int) ≤ (packets.length : Int) := by exact_mod_cast hlen1
    show (0 : Int) < 188 * (packets.length : Int)
    omega
  have hw : (write_EOF_to_buffered_TS_output w true packets data s).1 =
      [(internal_flush w packets data s).1,
       (add_eof_entry w (internal_flush w packets data s).2).1] := by
    unfold write_EOF_to_buffered_TS_output
    rw [if_pos ⟨rfl, hlen⟩]
  have hf : is_EOF_item (internal_flush w packets data s).1 = false := by
    have hne : (TS_PACKET_SIZE * (packets.length : Int) == 1) = false := by
      rw [beq_eq_false_iff_ne]
      show ¬(188 * (packets.length : Int) = 1)
      have h1 : (1 : Int) ≤ (packets.length : Int) := by exact_mod_cast hlen1
      omega
    simp only [is_EOF_item, internal_flush, hne, Bool.false_and]
  have he : is_EOF_item (add_eof_entry w (internal_flush w packets data s).2).1 = true := rfl
  refine ⟨hw, rfl, rfl, he, rfl, ?_, tswrite_child_sends_no_eof done hdone, ?_, ?_⟩
  · rw [hw, tswrite_child_sends_append done _ hdone]
    simp only [tswrite_child_sends, hf, Bool.false_eq_true, if_false, he, if_true,
      Option.map_some, Option.map_map]
    rfl
  · unfold received_EOF
    rw [if_pos he]
  · unfold received_EOF
    rw [if_pos he]

/-- Witness for `write_EOF_spec`: one open item holding a single packet,
an empty committed prefix and a ring of size 10. -/
theorem write_EOF_spec_witness :
    (([⟨0, 0, false, 0⟩] : List packet_data) ≠ []) ∧
    (∀ i ∈ ([] : List circ_item), is_EOF_item i = false) ∧
    ((write_EOF_to_buffered_TS_output ⟨250000, 10, 100, 7⟩ true [⟨0, 0, false, 0⟩] [71]
        ⟨0, 0, -1, 0, 0, 0, 0, false, false, 0, 0⟩).1 =
      [(internal_flush ⟨250000, 10, 100, 7⟩ [⟨0, 0, false, 0⟩] [71]
          ⟨0, 0, -1, 0, 0, 0, 0, false, false, 0, 0⟩).1,
       (add_eof_entry ⟨250000, 10, 100, 7⟩
          (internal_flush ⟨250000, 10, 100, 7⟩ [⟨0, 0, false, 0⟩] [71]
            ⟨0, 0, -1, 0, 0, 0, 0, false, false, 0, 0⟩).2).1] ∧
     (add_eof_entry ⟨250000, 10, 100, 7⟩
        (internal_flush ⟨250000, 10, 100, 7⟩ [⟨0, 0, false, 0⟩] [71]
          ⟨0, 0, -1, 0, 0, 0, 0, false, false, 0, 0⟩).2).1.length = 1 ∧
     (add_eof_entry ⟨250000, 10, 100, 7⟩
        (internal_flush ⟨250000, 10, 100, 7⟩ [⟨0, 0, false, 0⟩] [71]
          ⟨0, 0, -1, 0, 0, 0, 0, false, false, 0, 0⟩).2).1.data.headD 0 = 1 ∧
     is_EOF_item (add_eof_entry ⟨250000, 10, 100, 7⟩
        (internal_flush ⟨250000, 10, 100, 7⟩ [⟨0, 0, false, 0⟩] [71]
          ⟨0, 0, -1, 0, 0, 0, 0, false, false, 0, 0⟩).2).1 = true ∧
     (add_eof_entry ⟨250000, 10, 100, 7⟩
        (internal_flush ⟨250000, 10, 100, 7⟩ [⟨0, 0, false, 0⟩] [71]
          ⟨0, 0, -1, 0, 0, 0, 0, false, false, 0, 0⟩).2).1.time =
      (set_buffer_item_time_pcr ⟨250000, 10, 100, 7⟩ []
        (internal_flush ⟨250000, 10, 100, 7⟩ [⟨0, 0, false, 0⟩] [71]
          ⟨0, 0, -1, 0, 0, 0, 0, false, false, 0, 0⟩).2).last_timestamp ∧
     tswrite_child_sends
        ([] ++ (write_EOF_to_buffered_TS_output ⟨250000, 10, 100, 7⟩ true
          [⟨0, 0, false, 0⟩] [71] ⟨0, 0, -1, 0, 0, 0, 0, false, false, 0, 0⟩).1) =
      some ([] ++ [(internal_flush ⟨250000, 10, 100, 7⟩ [⟨0, 0, false, 0⟩] [71]
          ⟨0, 0, -1, 0, 0, 0, 0, false, false, 0, 0⟩).1]) ∧
     tswrite_child_sends ([] : List circ_item) = none ∧
     (received_EOF ⟨10, 1, 0⟩ (add_eof_entry ⟨250000, 10, 100, 7⟩
        (internal_flush ⟨250000, 10, 100, 7⟩ [⟨0, 0, false, 0⟩] [71]
          ⟨0, 0, -1, 0, 0, 0, 0, false, false, 0, 0⟩).2).1).1 = true ∧
     (received_EOF ⟨10, 1, 0⟩ (add_eof_entry ⟨250000, 10, 100, 7⟩
        (internal_flush ⟨250000, 10, 100, 7⟩ [⟨0, 0, false, 0⟩] [71]
          ⟨0, 0, -1, 0, 0, 0, 0, false, false, 0, 0⟩).2).1).2.start =
      ((⟨10, 1, 0⟩ : circular_buffer).start + 1) % (⟨10, 1, 0⟩ : circular_buffer).size) :=
  ⟨by decide, by simp,
   write_EOF_spec ⟨250000, 10, 100, 7⟩ [⟨0, 0, false, 0⟩] [71]
     ⟨0, 0, -1, 0, 0, 0, 0, false, false, 0, 0⟩ [] ⟨10, 1, 0⟩
     (by decide) (by simp)⟩

end TsTools
